import Mathlib

/-!
# tyGSOctal: GreenSpring IP-Octal serial driver

A shallow embedding of `tyGSOctal/tyGSOctal.c` and `tyGSOctal/tyGSOctal.h`.

* A device pointer `TY_GSOCTAL_DEV *dev` is a module table entry together with a
  port number: `dev = &qt->dev[port]`, and `dev->qt` is that entry.
* `tyGSOctalModuleInit` fixes `dev->chan = &c[port]` and `dev->regs = &r[port/2]`
  once and for all, so channel registers are addressed by `port` and the
  registers of a block by `port / 2`.
* Every access to a device register, every call into the line discipline
  (`tyIRd`, `tyITx`) and every call into the carrier layer is recorded, in
  program order, in a list of events.
* Values the code reads from the hardware or gets back from an external routine
  are inputs of the embedding.
* `epicsUInt8` values are natural numbers, truncated with `% 256` where the C
  assignment truncates; `unsigned long` counters wrap at `ULONG_MOD`.
-/

namespace TyGSOctal

/-! ## Constants of headers that are not part of the two source files -/

/-- Values of the preprocessor constants the driver takes from `sioLib.h`,
`scc2698.h` and `ip_modules.h`.  The driver is embedded for any choice of
them. -/
structure Consts where
  CLOCAL : Nat
  CSIZE : Nat
  CS5 : Nat
  CS6 : Nat
  CS7 : Nat
  CS8 : Nat
  STOPB : Nat
  PARENB : Nat
  PARODD : Nat
  SCC_ISR_TXRDY_A : Nat
  SCC_ISR_RXRDY_A : Nat
  SCC_ISR_TXRDY_B : Nat
  SCC_ISR_RXRDY_B : Nat
  GSIP_OCTAL232 : Nat
  GSIP_OCTAL422 : Nat
  GSIP_OCTAL485 : Nat

/-- The values these constants have in the VxWorks `sioLib.h`, in the SCC2698
register map and in the GreenSpring module list. -/
def vxConsts : Consts where
  CLOCAL := 0x1
  CSIZE := 0xc
  CS5 := 0x0
  CS6 := 0x4
  CS7 := 0x8
  CS8 := 0xc
  STOPB := 0x20
  PARENB := 0x40
  PARODD := 0x80
  SCC_ISR_TXRDY_A := 0x01
  SCC_ISR_RXRDY_A := 0x02
  SCC_ISR_TXRDY_B := 0x10
  SCC_ISR_RXRDY_B := 0x20
  GSIP_OCTAL232 := 0x22
  GSIP_OCTAL422 := 0x2a
  GSIP_OCTAL485 := 0x48

/-- What a C compiler and the driver need of the `sioLib.h` option constants:
the four word sizes are distinct `case` labels inside the `CSIZE` field, and
`STOPB`, `PARENB`, `PARODD`, `CLOCAL` are non-zero flags outside that field and
disjoint from each other. -/
def Consts.OptsWf (K : Consts) : Prop :=
  K.CS5 ≠ K.CS8 ∧ K.CS6 ≠ K.CS8 ∧ K.CS7 ≠ K.CS8 ∧
  K.CS8 &&& K.CSIZE = K.CS8 ∧
  K.CLOCAL ≠ 0 ∧
  K.CLOCAL &&& K.CSIZE = 0 ∧
  K.CS8 &&& K.STOPB = 0 ∧ K.CLOCAL &&& K.STOPB = 0 ∧
  K.CS8 &&& K.PARENB = 0 ∧ K.CLOCAL &&& K.PARENB = 0 ∧
  K.CS8 &&& K.PARODD = 0 ∧ K.CLOCAL &&& K.PARODD = 0

instance (K : Consts) : Decidable K.OptsWf := by
  unfold Consts.OptsWf; infer_instance

/-- Modulus of `unsigned long` on the 32-bit VxWorks targets of the driver
(`tyGSOctalOpen` returns the device pointer as an `int`). -/
def ULONG_MOD : Nat := 2 ^ 32

/-! ## Data model (`tyGSOctal.h`) -/

/-- The `RSmode` enumeration. -/
inductive RSmode where
  | RS485
  | RS232
  deriving DecidableEq, Repr

/-- The `STATUS` result of VxWorks routines. -/
inductive STATUS where
  | OK
  | ERROR
  deriving DecidableEq, Repr

/-- The `TY_GSOCTAL_DEV` structure without its `tyDev` member (owned by the
line discipline) and without the three pointers `regs`, `chan`, `qt`. -/
structure TY_GSOCTAL_DEV where
  created : Int
  block : Nat
  mode : RSmode
  baud : Int
  opts : Nat
  irqEnable : Nat
  readCount : Nat
  writeCount : Nat
  errorCount : Nat

/-- The `QUAD_TABLE` structure: `dev` has the eight ports 0..7 and `imr` the
four blocks 0..3. -/
structure QUAD_TABLE where
  moduleID : Option String
  dev : Nat → TY_GSOCTAL_DEV
  modelID : Nat
  carrier : Nat
  slot : Nat
  scan : Nat
  imr : Nat → Nat
  interruptCount : Nat

/-- Commands of `ipmIrqCmd` the driver issues. -/
inductive IrqCmd where
  | ipac_irqEnable
  | ipac_irqDisable
  | ipac_statActive
  | ipac_statUnused
  deriving DecidableEq, Repr

/-- Values given to `errnoSet`. -/
inductive Errno where
  | EINVAL
  | ENOSPC
  | S_ioLib_NO_DRIVER
  | ipac (status : Int)
  deriving DecidableEq, Repr

/-- One observable step of the driver.  Channel registers carry the port,
block registers the hardware block `port / 2`. -/
inductive Ev where
  | intLock
  | intUnlock
  | rd_sr (port : Nat)
  | rd_isr (block : Nat)
  | rd_rhr (port : Nat)
  | wr_thr (port val : Nat)
  | wr_cr (port val : Nat)
  | wr_mr (port val : Nat)
  | wr_csr (port val : Nat)
  | wr_acr (block val : Nat)
  | wr_opcr (block val : Nat)
  | wr_imr (block val : Nat)
  | flush_cr (port : Nat)
  | flush_imr (block : Nat)
  | tyIRd (port ch : Nat)
  | tyITx (port : Nat)
  | tyWrite (port : Nat)
  | tyDevInit (port : Nat) (rdBufSize wrtBufSize : Int)
  | iosDevAdd (port : Nat)
  | vxMemProbe (vec : Int)
  | ipmIntConnect (carrier slot vec : Int) (arg : Nat)
  | ipmIrqCmd (carrier slot : Int) (irq : Nat) (cmd : IrqCmd)
  | errnoSet (e : Errno)
  deriving DecidableEq, Repr

/-- The port whose channel registers (`sr`, `rhr`, `thr`, `cr`, `mr`, `csr`)
an event reads or writes. -/
def Ev.chanReg : Ev → Option Nat
  | .rd_sr p => some p
  | .rd_rhr p => some p
  | .wr_thr p _ => some p
  | .wr_cr p _ => some p
  | .wr_mr p _ => some p
  | .wr_csr p _ => some p
  | .flush_cr p => some p
  | _ => none

/-- The port an event hands to the line discipline in `tyIRd` or `tyITx`. -/
def Ev.tyCall : Ev → Option Nat
  | .tyIRd p _ => some p
  | .tyITx p => some p
  | _ => none

/-- Whether an event writes a device register. -/
def Ev.isWrite : Ev → Bool
  | .wr_thr _ _ => true
  | .wr_cr _ _ => true
  | .wr_mr _ _ => true
  | .wr_csr _ _ => true
  | .wr_acr _ _ => true
  | .wr_opcr _ _ => true
  | .wr_imr _ _ => true
  | _ => false

/-- The assignment `qt->dev[port] = d`. -/
def QUAD_TABLE.setDev (qt : QUAD_TABLE) (port : Nat) (d : TY_GSOCTAL_DEV) : QUAD_TABLE :=
  { qt with dev := Function.update qt.dev port d }

/-- The assignment `qt->imr[block] = v`. -/
def QUAD_TABLE.setImr (qt : QUAD_TABLE) (block : Nat) (v : Nat) : QUAD_TABLE :=
  { qt with imr := Function.update qt.imr block v }

/-! ## Channel configuration -/

/-- The divisor selector `tyGSOctalBaudSet` writes to `csr` for a rate, `none`
for the `default:` label of its `switch`. -/
def baudCsr (baud : Int) : Option Nat :=
  if baud = 1200 then some 0x66
  else if baud = 2400 then some 0x88
  else if baud = 4800 then some 0x99
  else if baud = 9600 then some 0xbb
  else if baud = 19200 then some 0xcc
  else if baud = 38400 then some 0x22
  else none

/-- The routine `tyGSOctalBaudSet(dev, baud)` for `dev = &qt->dev[port]`. -/
def tyGSOctalBaudSet (qt : QUAD_TABLE) (port : Nat) (baud : Int) :
    QUAD_TABLE × List Ev × STATUS :=
  match baudCsr baud with
  | some v =>
      (qt.setDev port { qt.dev port with baud := baud }, [Ev.wr_csr port v], STATUS.OK)
  | none => (qt, [Ev.errnoSet Errno.EINVAL], STATUS.ERROR)

/-- The routine `tyGSOctalSetmr(dev, mr1, mr2)` for `dev = &qt->dev[port]`. -/
def tyGSOctalSetmr (K : Consts) (qt : QUAD_TABLE) (port : Nat) (mr1 mr2 : Nat) :
    QUAD_TABLE × List Ev :=
  let is485 : Bool := decide (qt.modelID = K.GSIP_OCTAL485)
  let mode := if is485 then RSmode.RS485 else RSmode.RS232
  let mr1 := if is485 then mr1 &&& 0x7f else mr1
  let mr2 := if is485 then mr2 &&& 0xcf else mr2
  (qt.setDev port { qt.dev port with mode := mode },
   [Ev.wr_opcr (port / 2) 0x80, Ev.wr_cr port 0x10, Ev.wr_mr port mr1, Ev.wr_mr port mr2]
     ++ (if mr1 &&& 0x80 ≠ 0 then [Ev.wr_cr port 0x80] else []))

/-- The first mode byte `tyGSOctalOptsSet` computes from `opts`. -/
def optsMr1 (K : Consts) (opts : Nat) : Nat :=
  let mr1 : Nat := 0
  let mr1 :=
    if opts &&& K.CSIZE = K.CS5 then mr1
    else if opts &&& K.CSIZE = K.CS6 then mr1 ||| 0x01
    else if opts &&& K.CSIZE = K.CS7 then mr1 ||| 0x02
    else mr1 ||| 0x03
  let mr1 := if opts &&& K.PARENB = 0 then mr1 ||| 0x10 else mr1
  let mr1 := if opts &&& K.PARODD ≠ 0 then mr1 ||| 0x04 else mr1
  if opts &&& K.CLOCAL = 0 then mr1 ||| 0x80 else mr1

/-- The second mode byte `tyGSOctalOptsSet` computes from `opts`. -/
def optsMr2 (K : Consts) (opts : Nat) : Nat :=
  let mr2 : Nat := 0
  let mr2 := if opts &&& K.STOPB ≠ 0 then mr2 ||| 0x0f else mr2 ||| 0x07
  if opts &&& K.CLOCAL = 0 then mr2 ||| 0x10 else mr2

/-- The routine `tyGSOctalOptsSet(dev, opts)` for `dev = &qt->dev[port]`; `opts`
is the bit pattern of the `int` argument. -/
def tyGSOctalOptsSet (K : Consts) (qt : QUAD_TABLE) (port : Nat) (opts : Nat) :
    QUAD_TABLE × List Ev :=
  let r := tyGSOctalSetmr K qt port (optsMr1 K opts) (optsMr2 K opts)
  let qt1 := r.1
  (qt1.setDev port
     { qt1.dev port with
       opts := opts &&& (K.CSIZE ||| K.STOPB ||| K.PARENB ||| K.PARODD ||| K.CLOCAL) },
   r.2)

/-- Request codes of `tyGSOctalIoctl`: the five `case` labels of its `switch`
and every other code, which goes to `tyIoctl`. -/
inductive Request where
  | FIOBAUDRATE
  | SIO_BAUD_SET
  | SIO_BAUD_GET
  | SIO_HW_OPTS_SET
  | SIO_HW_OPTS_GET
  | other (code : Int)
  deriving DecidableEq, Repr

/-- Result of `tyGSOctalIoctl`: the module afterwards, the events, the status
returned and the `int` stored through `arg` by the two `GET` requests. -/
structure IoctlResult where
  qt : QUAD_TABLE
  trace : List Ev
  status : STATUS
  out : Option Int

/-- The routine `tyGSOctalIoctl(dev, request, arg)` for `dev = &qt->dev[port]`;
`tyIoctl` is what the line discipline returns for a request passed on to it. -/
def tyGSOctalIoctl (K : Consts) (tyIoctl : STATUS) (qt : QUAD_TABLE) (port : Nat)
    (request : Request) (arg : Int) : IoctlResult :=
  match request with
  | .FIOBAUDRATE | .SIO_BAUD_SET =>
      let r := tyGSOctalBaudSet qt port arg
      { qt := r.1, trace := [Ev.intLock] ++ r.2.1 ++ [Ev.intUnlock], status := r.2.2, out := none }
  | .SIO_BAUD_GET =>
      { qt := qt, trace := [], status := STATUS.OK, out := some (qt.dev port).baud }
  | .SIO_HW_OPTS_SET =>
      let r := tyGSOctalOptsSet K qt port (arg % 2 ^ 32).toNat
      { qt := r.1, trace := [Ev.intLock] ++ r.2 ++ [Ev.intUnlock], status := STATUS.OK, out := none }
  | .SIO_HW_OPTS_GET =>
      { qt := qt, trace := [], status := STATUS.OK, out := some ((qt.dev port).opts : Int) }
  | .other _ =>
      { qt := qt, trace := [], status := tyIoctl, out := none }

/-- The option word `tyGSOctalConfig` builds from its arguments. -/
def configOpts (K : Consts) (parity : Char) (stop bits : Int) (flow : Char) : Nat :=
  let opts : Nat := 0
  let opts :=
    if bits = 5 then opts ||| K.CS5
    else if bits = 6 then opts ||| K.CS6
    else if bits = 7 then opts ||| K.CS7
    else opts ||| K.CS8
  let opts := if stop = 2 then opts ||| K.STOPB else opts
  let opts := if flow.toLower ≠ 'h' then opts ||| K.CLOCAL else opts
  if parity.toLower = 'e' then opts ||| K.PARENB
  else if parity.toLower = 'o' then opts ||| (K.PARENB ||| K.PARODD)
  else opts

/-- The routine `tyGSOctalConfig(name, baud, parity, stop, bits, flow)` on the
module of the device; `dev` is the port of the device `iosDevFind` returns for
`name`, `none` when there is no device of that name. -/
def tyGSOctalConfig (K : Consts) (qt : QUAD_TABLE) (dev : Option Nat) (baud : Int)
    (parity : Char) (stop bits : Int) (flow : Char) : QUAD_TABLE × List Ev × STATUS :=
  match dev with
  | none => (qt, [], STATUS.ERROR)
  | some port =>
      let opts := configOpts K parity stop bits flow
      let r1 := tyGSOctalOptsSet K qt port opts
      let r2 := tyGSOctalBaudSet r1.1 port baud
      (r2.1, [Ev.intLock] ++ r1.2 ++ r2.2.1 ++ [Ev.intUnlock], STATUS.OK)

/-- The routine `tyGSOctalInitChannel(qt, port)`. -/
def tyGSOctalInitChannel (K : Consts) (qt : QUAD_TABLE) (port : Nat) : QUAD_TABLE × List Ev :=
  let block := port / 2
  let qt1 := qt.setDev port { qt.dev port with block := block }
  let qt2 := qt1.setDev port
    { qt1.dev port with
      irqEnable := (if port % 2 = 0 then K.SCC_ISR_TXRDY_A else K.SCC_ISR_TXRDY_B) % 256 }
  let tr1 := [Ev.intLock, Ev.wr_acr (port / 2) 0x80, Ev.wr_cr port 0x1a, Ev.wr_cr port 0x20,
    Ev.wr_cr port 0x30, Ev.wr_cr port 0x40]
  let r3 := tyGSOctalBaudSet qt2 port 9600
  let r4 := tyGSOctalOptsSet K r3.1 port (K.CS8 ||| K.CLOCAL)
  let qt4 := r4.1
  let qt5 := qt4.setImr block
    ((qt4.imr block ||| (if port % 2 = 0 then K.SCC_ISR_RXRDY_A else K.SCC_ISR_RXRDY_B)) % 256)
  (qt5, tr1 ++ r3.2.1 ++ r4.2
    ++ [Ev.wr_imr (port / 2) (qt5.imr block), Ev.wr_cr port 0x05, Ev.intUnlock])

/-! ## Interrupt dispatcher and transmit restart -/

/-- What one run of `tyGSOctalInt` or `tyGSOctalStartup` gets from outside:
`sr p` is the value read from the status register of port `p`, `isr p` the
value read from the interrupt status register of block `p / 2` when port `p`
is examined, `rhr p` the value read from the receive holding register of port
`p`, and `tyITx p` the byte `tyITx` delivers for port `p` (`none` when it does
not return `OK`). -/
structure HwIn where
  sr : Nat → Nat
  isr : Nat → Nat
  rhr : Nat → Nat
  tyITx : Nat → Option Nat

/-- The register `flush` points to at the end of `tyGSOctalInt`. -/
inductive Flush where
  | cr (port : Nat)
  | imr (block : Nat)
  deriving DecidableEq, Repr

/-- The local `sr` of `tyGSOctalInt` while it examines `port`. -/
def intSr (hw : HwIn) (port : Nat) : Nat :=
  hw.sr port % 256

/-- The local `isr` of `tyGSOctalInt` while it examines `port`: the interrupt
status masked with the shadow `imr[block]`, shifted down by four for an odd
port. -/
def intIsr (hw : HwIn) (qt : QUAD_TABLE) (port : Nat) : Nat :=
  let isr := (hw.isr port % 256) &&& qt.imr (qt.dev port).block
  if port % 2 = 1 then isr >>> 4 else isr

/-- The exit test `(isr & 0x03) || (sr & 0xf0)` of `tyGSOctalInt` at `port`. -/
def intWork (hw : HwIn) (qt : QUAD_TABLE) (port : Nat) : Bool :=
  decide (intIsr hw qt port &&& 0x03 ≠ 0) || decide (intSr hw port &&& 0xf0 ≠ 0)

/-- State of the scan loop of `tyGSOctalInt`. -/
structure IntState where
  qt : QUAD_TABLE
  trace : List Ev
  flush : Option Flush

/-- The body of the scan loop of `tyGSOctalInt` for a port whose device is
created, between `intLock()` and `intUnlock(key)`. -/
def intService (hw : HwIn) (st : IntState) (port : Nat) : IntState :=
  let block := (st.qt.dev port).block
  let sr := intSr hw port
  let isr := intIsr hw st.qt port
  let st : IntState :=
    { st with trace := st.trace ++ [Ev.intLock, Ev.rd_sr port, Ev.rd_isr (port / 2)] }
  let st : IntState :=
    if isr &&& 0x02 ≠ 0 then
      let inChar := hw.rhr port % 256
      let d := st.qt.dev port
      { st with
        qt := st.qt.setDev port { d with readCount := (d.readCount + 1) % ULONG_MOD },
        trace := st.trace ++ [Ev.rd_rhr port, Ev.tyIRd port inChar] }
    else st
  let st : IntState :=
    if isr &&& 0x01 ≠ 0 then
      match hw.tyITx port with
      | some outChar =>
          let d := st.qt.dev port
          { qt := st.qt.setDev port { d with writeCount := (d.writeCount + 1) % ULONG_MOD },
            trace := st.trace ++ [Ev.tyITx port, Ev.wr_thr port (outChar % 256), Ev.wr_cr port 0],
            flush := some (Flush.cr port) }
      | none =>
          let v := st.qt.imr block &&& (0xff ^^^ ((st.qt.dev port).irqEnable % 256))
          { qt := st.qt.setImr block v,
            trace := st.trace ++ [Ev.tyITx port, Ev.wr_imr (port / 2) v],
            flush := some (Flush.imr (port / 2)) }
    else st
  let st : IntState :=
    if sr &&& 0xf0 ≠ 0 then
      let d := st.qt.dev port
      { qt := st.qt.setDev port { d with errorCount := (d.errorCount + 1) % ULONG_MOD },
        trace := st.trace ++ [Ev.wr_cr port 0x40],
        flush := some (Flush.cr port) }
    else st
  { st with trace := st.trace ++ [Ev.intUnlock] }

/-- The scan loop `for (scan = 1; scan <= 8; scan++)` of `tyGSOctalInt`:
`n` iterations are left and `scan` is the loop variable.  The result also
names the port at which the loop was left by `break`. -/
def intLoop (hw : HwIn) : Nat → Nat → IntState → IntState × Option Nat
  | 0, _, st => (st, none)
  | n + 1, scan, st =>
      let port := (st.qt.scan + scan) % 8
      if (st.qt.dev port).created = 0 then intLoop hw n (scan + 1) st
      else
        let work := intWork hw st.qt port
        let st1 := intService hw st port
        if work then ({ st1 with qt := { st1.qt with scan := port } }, some port)
        else intLoop hw n (scan + 1) st1

/-- Result of one run of `tyGSOctalInt`: the module afterwards, the events and
the port that was serviced (where the scan loop was left by `break`). -/
structure IntResult where
  qt : QUAD_TABLE
  trace : List Ev
  serviced : Option Nat

/-- The routine `tyGSOctalInt(mod)` on the module `qt = &tyGSOctalModules[mod]`. -/
def tyGSOctalInt (hw : HwIn) (qt : QUAD_TABLE) : IntResult :=
  let qt0 := { qt with interruptCount := (qt.interruptCount + 1) % ULONG_MOD }
  let r := intLoop hw 8 1 { qt := qt0, trace := [], flush := none }
  let tail :=
    match r.1.flush with
    | some (Flush.cr p) => [Ev.flush_cr p]
    | some (Flush.imr b) => [Ev.flush_imr b]
    | none => []
  { qt := r.1.qt, trace := r.1.trace ++ tail, serviced := r.2 }

/-- The routine `tyGSOctalStartup(dev)` for `dev = &qt->dev[port]`. -/
def tyGSOctalStartup (hw : HwIn) (qt : QUAD_TABLE) (port : Nat) : QUAD_TABLE × List Ev :=
  let block := (qt.dev port).block
  match hw.tyITx port with
  | some outChar =>
      let thr := if (hw.sr port % 256) &&& 0x04 ≠ 0 then [Ev.wr_thr port (outChar % 256)] else []
      let v := (qt.imr block ||| (qt.dev port).irqEnable) % 256
      (qt.setImr block v,
       [Ev.intLock, Ev.tyITx port, Ev.rd_sr port] ++ thr ++ [Ev.wr_imr (port / 2) v, Ev.intUnlock])
  | none =>
      let v := qt.imr block &&& (0xff ^^^ ((qt.dev port).irqEnable % 256))
      (qt.setImr block v, [Ev.intLock, Ev.tyITx port, Ev.wr_imr (port / 2) v, Ev.intUnlock])

/-- The content of the hardware interrupt mask register of `block` after one
event, `cur` being its content before: a write to that register replaces it. -/
def imrWrite (block : Nat) (cur : Nat) : Ev → Nat
  | Ev.wr_imr b v => if b = block then v else cur
  | _ => cur

/-- The value the hardware interrupt mask register of `block` holds after the
events `tr`, when it held `h block` before: the last value written to it. -/
def hwImr (h : Nat → Nat) (tr : List Ev) (block : Nat) : Nat :=
  tr.foldl (imrWrite block) (h block)

/-! ## Driver state, module registration, device creation, reboot hook -/

/-- The file-scope variables of `tyGSOctal.c`.  The `calloc`ed table
`tyGSOctalModules` is the memory from its start on, indexed by entry. -/
structure Driver where
  tyGSOctalModules : Nat → QUAD_TABLE
  tyGSOctalMaxModules : Int
  tyGSOctalLastModule : Nat
  tyGSOctalDrvNum : Int

/-- The assignment `tyGSOctalModules[mod] = qt`. -/
def Driver.setModule (D : Driver) (mod : Nat) (qt : QUAD_TABLE) : Driver :=
  { D with tyGSOctalModules := Function.update D.tyGSOctalModules mod qt }

/-- The C library routine `strstr(hay, needle) != NULL` on character lists. -/
def strstr : List Char → List Char → Bool
  | [], needle => needle.isEmpty
  | c :: hay, needle => (needle.isPrefixOf (c :: hay)) || strstr hay needle

/-- The search loop of `tyGSOctalModuleInit`: `n` entries are left to look at
and `mod` is the loop variable; the result is the value of `mod` after the
loop. -/
def moduleSearch (tbl : Nat → QUAD_TABLE) (carrier slot : Int) : Nat → Nat → Nat
  | 0, mod => mod
  | n + 1, mod =>
      if ((tbl mod).carrier : Int) = carrier ∧ ((tbl mod).slot : Int) = slot then mod
      else moduleSearch tbl carrier slot n (mod + 1)

/-- What `tyGSOctalModuleInit` gets from the carrier layer and the system:
the status of `ipmValidate`, whether `ipmBaseAddr(.., ipac_addrMem)` is `NULL`,
the status of `vxMemProbe` and the result of `ipmIntConnect`. -/
structure ModEnv where
  ipmValidate : Int
  addrMemNull : Bool
  vxMemProbe : STATUS
  ipmIntConnect : Int

/-- The model id `tyGSOctalModuleInit` takes from the `type` string. -/
def typeModelID (K : Consts) (type : String) : Option Nat :=
  if strstr type.toList "232".toList then some K.GSIP_OCTAL232
  else if strstr type.toList "422".toList then some K.GSIP_OCTAL422
  else if strstr type.toList "485".toList then some K.GSIP_OCTAL485
  else none

/-- The loop `for (port = 0; port < 8; port++)` of `tyGSOctalModuleInit`, one
step: `qt->dev[port].created = 0` (the three pointers are not part of the
embedding). -/
def moduleInitPort (qt : QUAD_TABLE) (port : Nat) : QUAD_TABLE :=
  qt.setDev port { qt.dev port with created := 0 }

/-- The loop `for (block = 0; block < 4; block++) qt->imr[block] = 0`, one
step. -/
def moduleInitBlock (qt : QUAD_TABLE) (block : Nat) : QUAD_TABLE :=
  qt.setImr block 0

/-- The routine `tyGSOctalModuleInit(moduleID, type, int_num, carrier, slot)`;
the result is `none` for `ERROR`. -/
def tyGSOctalModuleInit (K : Consts) (env : ModEnv) (D : Driver)
    (moduleID type : Option String) (int_num carrier slot : Int) :
    Driver × List Ev × Option Nat :=
  if D.tyGSOctalDrvNum ≤ 0 then (D, [Ev.errnoSet Errno.S_ioLib_NO_DRIVER], none)
  else
    match moduleID, type with
    | some moduleID, some type =>
        match typeModelID K type with
        | none => (D, [Ev.errnoSet Errno.EINVAL], none)
        | some modelID =>
            if env.ipmValidate ≠ 0 then (D, [Ev.errnoSet (Errno.ipac env.ipmValidate)], none)
            else
              let mod := moduleSearch D.tyGSOctalModules carrier slot D.tyGSOctalLastModule 0
              if mod ≥ D.tyGSOctalLastModule then
                if (D.tyGSOctalLastModule : Int) ≥ D.tyGSOctalMaxModules then
                  (D, [Ev.errnoSet Errno.ENOSPC], none)
                else
                  let qt := D.tyGSOctalModules D.tyGSOctalLastModule
                  let qt := { qt with
                    modelID := modelID % 65536,
                    carrier := (carrier % 65536).toNat,
                    slot := (slot % 65536).toNat,
                    moduleID := some moduleID }
                  let qt := (List.range 8).foldl moduleInitPort qt
                  let qt := (List.range 4).foldl moduleInitBlock qt
                  let D1 := D.setModule D.tyGSOctalLastModule qt
                  if env.addrMemNull then (D1, [], none)
                  else if env.vxMemProbe = STATUS.ERROR then (D1, [Ev.vxMemProbe (int_num % 65536)], none)
                  else if env.ipmIntConnect ≠ 0 then
                    (D1, [Ev.vxMemProbe (int_num % 65536),
                          Ev.ipmIntConnect carrier slot int_num D.tyGSOctalLastModule], none)
                  else
                    ({ D1 with tyGSOctalLastModule := D1.tyGSOctalLastModule + 1 },
                     [Ev.vxMemProbe (int_num % 65536),
                      Ev.ipmIntConnect carrier slot int_num D.tyGSOctalLastModule,
                      Ev.ipmIrqCmd carrier slot 0 IrqCmd.ipac_irqEnable,
                      Ev.ipmIrqCmd carrier slot 1 IrqCmd.ipac_irqEnable,
                      Ev.ipmIrqCmd carrier slot 0 IrqCmd.ipac_statActive],
                     some D.tyGSOctalLastModule)
              else
                ({ D with tyGSOctalLastModule := D.tyGSOctalLastModule + 1 }, [],
                 some D.tyGSOctalLastModule)
    | _, _ => (D, [Ev.errnoSet Errno.EINVAL], none)

/-- The loop of `tyGSOctalFindQT`: `n` entries are left and `mod` is the loop
variable; the result is the index of the entry returned, `none` for `NULL`.
An entry whose `moduleID` is `NULL` equals no name. -/
def findQTLoop (tbl : Nat → QUAD_TABLE) (moduleID : String) : Nat → Nat → Option Nat
  | 0, _ => none
  | n + 1, mod =>
      if (tbl mod).moduleID = some moduleID then some mod
      else findQTLoop tbl moduleID n (mod + 1)

/-- The routine `tyGSOctalFindQT(moduleID)`, returning the table index. -/
def tyGSOctalFindQT (D : Driver) (moduleID : Option String) : Option Nat :=
  match moduleID with
  | none => none
  | some id => findQTLoop D.tyGSOctalModules id D.tyGSOctalLastModule 0

/-- What `tyGSOctalDevCreate` gets from the system: whether `tyDevInit` and
`iosDevAdd` return `OK`. -/
structure CreateEnv where
  tyDevInit : STATUS
  iosDevAdd : STATUS

/-- The routine `tyGSOctalDevCreate(name, moduleID, port, rdBufSize,
wrtBufSize)`: the driver afterwards, the module the events belong to with the
events, and the name returned (`none` for `NULL`). -/
def tyGSOctalDevCreate (K : Consts) (env : CreateEnv) (D : Driver) (name moduleID : Option String)
    (port : Int) (rdBufSize wrtBufSize : Int) : Driver × List Ev × Option String :=
  match name, tyGSOctalFindQT D moduleID with
  | some name, some mod =>
      if port < 0 ∨ port > 7 then (D, [], none)
      else
        let p := port.toNat
        let qt := D.tyGSOctalModules mod
        if (qt.dev p).created ≠ 0 then (D, [], none)
        else if env.tyDevInit ≠ STATUS.OK then (D, [Ev.tyDevInit p rdBufSize wrtBufSize], none)
        else
          let r := tyGSOctalInitChannel K qt p
          let qt1 := r.1.setDev p { r.1.dev p with created := 1 }
          let D1 := D.setModule mod qt1
          let tr := [Ev.tyDevInit p rdBufSize wrtBufSize] ++ r.2 ++ [Ev.iosDevAdd p]
          if env.iosDevAdd ≠ STATUS.OK then (D1, tr, none)
          else (D1, tr, some name)
  | _, _ => (D, [], none)

/-- The body of the port loop of `tyGSOctalRebootHook`. -/
def rebootPort (st : QUAD_TABLE × List Ev) (port : Nat) : QUAD_TABLE × List Ev :=
  let qt := st.1
  let st1 : QUAD_TABLE × List Ev :=
    if (qt.dev port).created ≠ 0 then
      (qt.setDev port { qt.dev port with irqEnable := 0 }, st.2 ++ [Ev.wr_imr (port / 2) 0])
    else st
  (st1.1, st1.2 ++ [Ev.ipmIrqCmd qt.carrier qt.slot 0 IrqCmd.ipac_irqDisable,
                    Ev.ipmIrqCmd qt.carrier qt.slot 1 IrqCmd.ipac_irqDisable,
                    Ev.ipmIrqCmd qt.carrier qt.slot 0 IrqCmd.ipac_statUnused])

/-- The port loop of `tyGSOctalRebootHook` on one module, with its events. -/
def rebootModule (qt : QUAD_TABLE) : QUAD_TABLE × List Ev :=
  (List.range 8).foldl rebootPort (qt, [])

/-- The body of the module loop of `tyGSOctalRebootHook`; events carry the
table index of their module. -/
def rebootStep (st : Driver × List (Nat × Ev)) (mod : Nat) : Driver × List (Nat × Ev) :=
  let r := rebootModule (st.1.tyGSOctalModules mod)
  (st.1.setModule mod r.1, st.2 ++ r.2.map (fun e => (mod, e)))

/-- The routine `tyGSOctalRebootHook(type)`; it returns `OK` always.  The
`intLock()` and `intUnlock(key)` around the module loop belong to no module and
are not recorded. -/
def tyGSOctalRebootHook (D : Driver) : Driver × List (Nat × Ev) :=
  (List.range D.tyGSOctalLastModule).foldl rebootStep (D, [])

/-! ## Quiet module and environment used at concrete inputs -/

/-- A zeroed `TY_GSOCTAL_DEV`, as `calloc` leaves it. -/
def dev0 : TY_GSOCTAL_DEV where
  created := 0
  block := 0
  mode := RSmode.RS485
  baud := 0
  opts := 0
  irqEnable := 0
  readCount := 0
  writeCount := 0
  errorCount := 0

/-- A zeroed `QUAD_TABLE`, as `calloc` leaves it. -/
def qt0 : QUAD_TABLE where
  moduleID := none
  dev := fun _ => dev0
  modelID := 0
  carrier := 0
  slot := 0
  scan := 0
  imr := fun _ => 0
  interruptCount := 0

/-- The file-scope variables after a first `tyGSOctalDrv(maxModules)` that
succeeded with driver number 1: the table is zeroed by `calloc` and no module
is registered. -/
def drvInstalled (maxModules : Int) : Driver where
  tyGSOctalModules := fun _ => qt0
  tyGSOctalMaxModules := maxModules
  tyGSOctalLastModule := 0
  tyGSOctalDrvNum := 1

/-- A carrier layer that accepts everything: `ipmValidate` returns 0, there is
module memory, the vector write and `ipmIntConnect` succeed. -/
def modEnvOk : ModEnv where
  ipmValidate := 0
  addrMemNull := false
  vxMemProbe := STATUS.OK
  ipmIntConnect := 0

/-- The driver after `tyGSOctalDrv(4)` and the documented call
`tyGSOctalModuleInit("232-1", "232", 0x60, 0, 1)`. -/
def drvOneModule : Driver :=
  (tyGSOctalModuleInit vxConsts modEnvOk (drvInstalled 4) (some "232-1") (some "232") 0x60 0 1).1

/-- A silent hardware: all status registers read 0 and the line discipline has
nothing to send. -/
def hwQuiet : HwIn where
  sr := fun _ => 0
  isr := fun _ => 0
  rhr := fun _ => 0
  tyITx := fun _ => none

/-- A hardware on which every status register reads `0xff` and the line
discipline has byte `0x41` for every port. -/
def hwBusy : HwIn where
  sr := fun _ => 0xff
  isr := fun _ => 0xff
  rhr := fun _ => 0x55
  tyITx := fun _ => some 0x41

/-- A system in which `tyDevInit` and `iosDevAdd` succeed. -/
def createEnvOk : CreateEnv where
  tyDevInit := STATUS.OK
  iosDevAdd := STATUS.OK

/-- The driver `drvOneModule` after the calls
`tyGSOctalDevCreate("/SBS/0,1/2", "232-1", 2, 512, 512)` and
`tyGSOctalDevCreate("/SBS/0,1/5", "232-1", 5, 512, 512)`. -/
def drvTwoPorts : Driver :=
  (tyGSOctalDevCreate vxConsts createEnvOk
    (tyGSOctalDevCreate vxConsts createEnvOk drvOneModule
      (some "/SBS/0,1/2") (some "232-1") 2 512 512).1
    (some "/SBS/0,1/5") (some "232-1") 5 512 512).1

/-- The module of `drvTwoPorts`: ports 2 and 5 are created, no other. -/
def qtTwoPorts : QUAD_TABLE :=
  drvTwoPorts.tyGSOctalModules 0

/-- Pending work of a port as the dispatcher sees it: the masked channel-local
interrupt status has receive-ready (`0x02`) or transmit-ready (`0x01`) set, or
the error nibble of the status register is not zero. -/
def pendingWork (hw : HwIn) (qt : QUAD_TABLE) (port : Nat) : Prop :=
  intIsr hw qt port &&& 0x02 ≠ 0 ∨ intIsr hw qt port &&& 0x01 ≠ 0 ∨ intSr hw port &&& 0xf0 ≠ 0

instance (hw : HwIn) (qt : QUAD_TABLE) (port : Nat) : Decidable (pendingWork hw qt port) := by
  unfold pendingWork; infer_instance

/-- The calls into the line discipline (`tyIRd`, `tyITx`) among some events. -/
def tyCalls (tr : List Ev) : List Ev :=
  tr.filter (fun e => e.tyCall.isSome)

/-- A created port at which the scan loop of `tyGSOctalInt` finds work. -/
def intBusy (hw : HwIn) (qt : QUAD_TABLE) (port : Nat) : Prop :=
  (qt.dev port).created ≠ 0 ∧ intWork hw qt port = true

instance (hw : HwIn) (qt : QUAD_TABLE) (port : Nat) : Decidable (intBusy hw qt port) := by
  unfold intBusy; infer_instance

/-- The loop state after the visit of `port` that ends the scan loop. -/
def intLeave (hw : HwIn) (st : IntState) (port : Nat) : IntState :=
  { intService hw st port with qt := { (intService hw st port).qt with scan := port } }

/-! ### Consecutive runs of the dispatcher -/

/-- The number `N` of created ports of a module. -/
def numCreated (qt : QUAD_TABLE) : Nat :=
  ((List.range 8).filter (fun p => decide ((qt.dev p).created ≠ 0))).length

/-- Consecutive runs of `tyGSOctalInt` on one module, one for each element of
the list of inputs: the serviced port of each run, in order. -/
def runInts (qt : QUAD_TABLE) : List HwIn → List (Option Nat)
  | [] => []
  | hw :: rest => (tyGSOctalInt hw qt).serviced :: runInts (tyGSOctalInt hw qt).qt rest

/-- At every one of the consecutive runs, every created port 0..7 signals
pending work. -/
def AllPending (qt : QUAD_TABLE) : List HwIn → Prop
  | [] => True
  | hw :: rest =>
      (∀ p, p < 8 → (qt.dev p).created ≠ 0 → pendingWork hw qt p) ∧
      AllPending (tyGSOctalInt hw qt).qt rest

/-- The ports 0..7 of a predicate as the bits of a number. -/
def maskOf (c : Nat → Bool) : Nat :=
  (if c 0 then 1 else 0) + (if c 1 then 2 else 0) + (if c 2 then 4 else 0) +
  (if c 3 then 8 else 0) + (if c 4 then 16 else 0) + (if c 5 then 32 else 0) +
  (if c 6 then 64 else 0) + (if c 7 then 128 else 0)

/-- The created ports of a module as a bit mask. -/
def createdMask (qt : QUAD_TABLE) : Nat :=
  maskOf (fun p => decide ((qt.dev p).created ≠ 0))

/-- The first port of the mask `m` in the order `(s + k) % 8`, `k` counting up
for `n` steps. -/
def nxtLoop (m s : Nat) : Nat → Nat → Nat
  | 0, _ => s % 8
  | n + 1, k => if m.testBit ((s + k) % 8) then (s + k) % 8 else nxtLoop m s n (k + 1)

/-- The first port of the mask `m` after `s` in circular order. -/
def nxt (m s : Nat) : Nat := nxtLoop m s 8 1

/-- The number of ports in the mask `m`. -/
def popc (m : Nat) : Nat := ((List.range 8).filter (fun p => m.testBit p)).length

/-- The number of ports of the mask `m` among `s + 1, s + 2, ..., p` in circular
order (all eight ports when `p = s`): the number of runs until `p` is
serviced. -/
def pot (m s p : Nat) : Nat :=
  ((List.range ((p + 7 - s % 8) % 8 + 1)).filter (fun j => m.testBit ((s + j + 1) % 8))).length

/-- The round robin step on masks, checked at one mask, cursor and port. -/
def rrCheck (m s p : Nat) : Bool :=
  !(m.testBit p) ||
   (decide (1 ≤ pot m s p) && decide (pot m s p ≤ popc m) && decide (pot m p p = popc m) &&
    decide (nxt m s < 8) &&
    (if nxt m s = p then decide (pot m s p = 1) else decide (pot m (nxt m s) p + 1 = pot m s p)))

/-- The round robin step checked for all masks, cursors and ports. -/
def rrCheckAll : Bool :=
  (List.range 256).all fun m => (List.range 8).all fun s => (List.range 8).all fun p => rrCheck m s p

/-- Deciding `AllPending` run by run. -/
def AllPending.decide : (hws : List HwIn) → (qt : QUAD_TABLE) → Decidable (AllPending qt hws)
  | [], _ => isTrue trivial
  | hw :: rest, qt =>
      match (inferInstance : Decidable
          (∀ p, p < 8 → (qt.dev p).created ≠ 0 → pendingWork hw qt p)) with
      | isFalse h => isFalse (fun hc => h hc.1)
      | isTrue h =>
          match AllPending.decide rest (tyGSOctalInt hw qt).qt with
          | isFalse h2 => isFalse (fun hc => h2 hc.2)
          | isTrue h2 => isTrue ⟨h, h2⟩

instance (qt : QUAD_TABLE) (hws : List HwIn) : Decidable (AllPending qt hws) :=
  AllPending.decide hws qt

/-- The module `qtTwoPorts` after `tyGSOctalStartup` for port 5 with a byte to
send: the transmit interrupt of port 5 is enabled. -/
def qtTx5 : QUAD_TABLE :=
  (tyGSOctalStartup hwBusy qtTwoPorts 5).1

/-- A hardware on which only the transmit-ready bit of port 5 (bit `0x10` of
the interrupt status of block 2) is set; the line discipline has byte `0x41`. -/
def hwTx5 : HwIn where
  sr := fun _ => 0
  isr := fun p => if p / 2 = 2 then 0x10 else 0
  rhr := fun _ => 0
  tyITx := fun _ => some 0x41

/-- The events of the module with table index `mod` among the events of the
driver. -/
def moduleEvents (mod : Nat) (tr : List (Nat × Ev)) : List Ev :=
  (tr.filter (fun x => decide (x.1 = mod))).map Prod.snd

/-! ## Half-duplex write wrapper -/

/-- What `tyGSOctalWrite` gets from outside: the count `tyWrite` returns, and
`sr k`, the value of the `k`-th read (from 0) of the channel status register in
the wait loop. -/
structure WriteEnv where
  tyWrite : Int
  sr : Nat → Nat

/-- Result of `tyGSOctalWrite`: the events and the value returned, `none` when
the wait loop has not been left after the number of reads allowed. -/
structure WriteResult where
  trace : List Ev
  result : Option Int

/-- The loop `while(!(chan->u.r.sr & 0x08));` of `tyGSOctalWrite`: at most `n`
reads, the next being read number `k`; the result is the reads made and whether
the loop was left. -/
def waitTxEmt (env : WriteEnv) (port : Nat) : Nat → Nat → List Ev × Bool
  | 0, _ => ([], false)
  | n + 1, k =>
      if (env.sr k % 256) &&& 0x08 ≠ 0 then ([Ev.rd_sr port], true)
      else (Ev.rd_sr port :: (waitTxEmt env port n (k + 1)).1, (waitTxEmt env port n (k + 1)).2)

/-- The routine `tyGSOctalWrite(dev, write_bfr, write_size)` for a device
`dev = &qt->dev[port]` (not `NULL`), with at most `fuel` reads in its wait
loop.  The call of `tyWrite` is one event; what the line discipline does in it
is not part of the routine. -/
def tyGSOctalWrite (env : WriteEnv) (fuel : Nat) (qt : QUAD_TABLE) (port : Nat) : WriteResult :=
  let pre := if (qt.dev port).mode = RSmode.RS485 then [Ev.wr_cr port 0x82] else []
  let nbytes := env.tyWrite
  if (qt.dev port).mode = RSmode.RS485 then
    let w := waitTxEmt env port fuel 0
    if w.2 then
      { trace := pre ++ [Ev.tyWrite port] ++ w.1 ++ [Ev.wr_cr port 0x91], result := some nbytes }
    else
      { trace := pre ++ [Ev.tyWrite port] ++ w.1, result := none }
  else
    { trace := pre ++ [Ev.tyWrite port], result := some nbytes }

/-- A module of the 485 variant with port 3 created, as `tyGSOctalModuleInit`
and `tyGSOctalDevCreate` leave it. -/
def qt485 : QUAD_TABLE :=
  let qt := { qt0 with modelID := vxConsts.GSIP_OCTAL485, moduleID := some "485-1" }
  let r := tyGSOctalInitChannel vxConsts qt 3
  r.1.setDev 3 { r.1.dev 3 with created := 1 }

/-- A line on which the transmitter reports empty at the third status read;
`tyWrite` has taken 10 bytes. -/
def writeEnv3 : WriteEnv where
  tyWrite := 10
  sr := fun k => if k = 2 then 0x0c else 0x04

/-- A line on which the transmitter never reports empty. -/
def writeEnvStuck : WriteEnv where
  tyWrite := 10
  sr := fun _ => 0

/-! ## Driver installation -/

/-- The value of `ERROR` in `vxWorks.h`. -/
def vxERROR : Int := -1

/-- What `tyGSOctalDrv` gets from the system: whether `calloc` returns memory
and the value `iosDrvInstall` returns (a driver number, or `vxERROR`). -/
structure DrvEnv where
  callocOk : Bool
  iosDrvInstall : Int

/-- The routine `tyGSOctalDrv(maxModules)`.  `calloc` returns a zeroed table;
when it returns `NULL` the table is not used afterwards
(`tyGSOctalLastModule` is 0 and `tyGSOctalDrvNum` is not positive) and is left
as it is here.  `rebootHookAdd` is not recorded. -/
def tyGSOctalDrv (env : DrvEnv) (D : Driver) (maxModules : Int) : Driver × STATUS :=
  if D.tyGSOctalDrvNum > 0 then (D, STATUS.OK)
  else
    let D1 := { D with tyGSOctalMaxModules := maxModules, tyGSOctalLastModule := 0 }
    if env.callocOk = false then (D1, STATUS.ERROR)
    else
      let D2 := { D1 with tyGSOctalModules := fun _ => qt0 }
      let D3 := { D2 with tyGSOctalDrvNum := env.iosDrvInstall }
      (D3, if D3.tyGSOctalDrvNum = vxERROR then STATUS.ERROR else STATUS.OK)

/-- The file-scope variables at program start: all zero. -/
def drvUninstalled : Driver where
  tyGSOctalModules := fun _ => qt0
  tyGSOctalMaxModules := 0
  tyGSOctalLastModule := 0
  tyGSOctalDrvNum := 0

/-- A system in which `calloc` succeeds and `iosDrvInstall` returns driver
number 1. -/
def drvEnvOk : DrvEnv where
  callocOk := true
  iosDrvInstall := 1

/-! ## The mode bytes in the words of the specification -/

/-- The four word sizes are distinct `case` labels of the `switch` in
`tyGSOctalOptsSet`. -/
def Consts.CaseLabels (K : Consts) : Prop :=
  K.CS5 ≠ K.CS6 ∧ K.CS5 ≠ K.CS7 ∧ K.CS5 ≠ K.CS8 ∧ K.CS6 ≠ K.CS7 ∧ K.CS6 ≠ K.CS8 ∧ K.CS7 ≠ K.CS8

instance (K : Consts) : Decidable K.CaseLabels := by
  unfold Consts.CaseLabels; infer_instance

/-- The four interrupt bits of `scc2698.h` fit the `epicsUInt8` they are stored
in. -/
def Consts.IsrBytes (K : Consts) : Prop :=
  K.SCC_ISR_TXRDY_A < 256 ∧ K.SCC_ISR_RXRDY_A < 256 ∧
  K.SCC_ISR_TXRDY_B < 256 ∧ K.SCC_ISR_RXRDY_B < 256

instance (K : Consts) : Decidable K.IsrBytes := by
  unfold Consts.IsrBytes; infer_instance

/-- The word-length code of mode byte 1: 0, 1, 2, 3 for 5, 6, 7, 8 bits. -/
def wordLenCode (K : Consts) (opts : Nat) : Nat :=
  if opts &&& K.CSIZE = K.CS5 then 0
  else if opts &&& K.CSIZE = K.CS6 then 1
  else if opts &&& K.CSIZE = K.CS7 then 2
  else 3

/-- Mode byte 1 as the specification words it: word-length code, `0x10` if
parity is disabled, `0x04` if odd parity, `0x80` if flow control is selected
(`flow = false` leaves the last term out). -/
def specMr1 (K : Consts) (opts : Nat) (flow : Bool) : Nat :=
  wordLenCode K opts ||| (if opts &&& K.PARENB = 0 then 0x10 else 0) |||
    (if opts &&& K.PARODD ≠ 0 then 0x04 else 0) |||
    (if flow = true ∧ opts &&& K.CLOCAL = 0 then 0x80 else 0)

/-- Mode byte 2 as the specification words it: `0x0f` for 2 stop bits, else
`0x07`, and `0x10` if flow control is selected (`flow = false` leaves the last
term out). -/
def specMr2 (K : Consts) (opts : Nat) (flow : Bool) : Nat :=
  (if opts &&& K.STOPB ≠ 0 then 0x0f else 0x07) |||
    (if flow = true ∧ opts &&& K.CLOCAL = 0 then 0x10 else 0)

/-- The writes to the mode register among some events. -/
def modeWrites (tr : List Ev) : List Ev :=
  tr.filter (fun e => match e with
    | Ev.wr_mr _ _ => true
    | _ => false)

/-- A hardware whose transmit holding register is not empty (status bit `0x04`
clear); the line discipline delivers byte `0x41`. -/
def hwHold : HwIn where
  sr := fun _ => 0
  isr := fun _ => 0
  rhr := fun _ => 0
  tyITx := fun _ => some 0x41

/-- A hardware on which only the transmit-ready bit of port 5 is set; the line
discipline delivers its next byte, `0x42`. -/
def hwNext : HwIn where
  sr := fun _ => 0x04
  isr := fun p => if p / 2 = 2 then 0x10 else 0
  rhr := fun _ => 0
  tyITx := fun _ => some 0x42

/-- The driver after `tyGSOctalDrv(1)` at program start. -/
def drvOneSlot : Driver :=
  (tyGSOctalDrv drvEnvOk drvUninstalled 1).1

/-- The driver `drvOneSlot` after
`tyGSOctalModuleInit("232-1", "232", 0x60, 0, 1)`. -/
def drvOneSlotFull : Driver :=
  (tyGSOctalModuleInit vxConsts modEnvOk drvOneSlot (some "232-1") (some "232") 0x60 0 1).1

/-! ## Theorems -/

theorem baudCsr_isSome_iff (rate : Int) :
    (baudCsr rate).isSome = true ↔ rate ∈ [1200, 2400, 4800, 9600, 19200, 38400] := by
  unfold baudCsr
  simp only [List.mem_cons, List.mem_singleton, List.not_mem_nil, or_false]
  constructor
  · intro h
    split_ifs at h <;> simp_all
  · rintro (h | h | h | h | h | h) <;> subst h <;> decide

/-- C1: for a rate among 1200, 2400, 4800, 9600, 19200, 38400 `tyGSOctalBaudSet`
returns `OK` and a following `SIO_BAUD_GET` of `tyGSOctalIoctl` stores exactly
that rate; for every other integer it returns `ERROR`, writes no register, and
leaves the channel's `baud` and `opts` (indeed the whole module) as they were. -/
theorem tyGSOctalBaudSet_contract (K : Consts) (tyIoctl : STATUS) (qt : QUAD_TABLE)
    (port : Nat) (rate arg : Int) :
    (rate ∈ [1200, 2400, 4800, 9600, 19200, 38400] →
      (tyGSOctalBaudSet qt port rate).2.2 = STATUS.OK ∧
      (tyGSOctalIoctl K tyIoctl (tyGSOctalBaudSet qt port rate).1 port
        Request.SIO_BAUD_GET arg).out = some rate ∧
      (tyGSOctalIoctl K tyIoctl (tyGSOctalBaudSet qt port rate).1 port
        Request.SIO_BAUD_GET arg).status = STATUS.OK) ∧
    (rate ∉ [1200, 2400, 4800, 9600, 19200, 38400] →
      (tyGSOctalBaudSet qt port rate).2.2 = STATUS.ERROR ∧
      (∀ e ∈ (tyGSOctalBaudSet qt port rate).2.1, e.isWrite = false) ∧
      ((tyGSOctalBaudSet qt port rate).1.dev port).baud = (qt.dev port).baud ∧
      ((tyGSOctalBaudSet qt port rate).1.dev port).opts = (qt.dev port).opts ∧
      (tyGSOctalBaudSet qt port rate).1 = qt) := by
  constructor
  · intro h
    have h1 := (baudCsr_isSome_iff rate).2 h
    obtain ⟨v, hv⟩ := Option.isSome_iff_exists.1 h1
    simp [tyGSOctalBaudSet, hv, tyGSOctalIoctl, QUAD_TABLE.setDev]
  · intro h
    have h1 : baudCsr rate = none := by
      cases hb : baudCsr rate with
      | none => rfl
      | some v =>
          exact absurd ((baudCsr_isSome_iff rate).1 (by simp [hb])) h
    simp [tyGSOctalBaudSet, h1, Ev.isWrite]

/-- C1 at concrete inputs: rate 19200 is accepted and read back, rate 57600 is
rejected and leaves the zeroed module as it was. -/
theorem tyGSOctalBaudSet_contract_witness :
    ((tyGSOctalBaudSet qt0 3 19200).2.2 = STATUS.OK ∧
      (tyGSOctalIoctl vxConsts STATUS.OK (tyGSOctalBaudSet qt0 3 19200).1 3
        Request.SIO_BAUD_GET 0).out = some 19200 ∧
      (tyGSOctalIoctl vxConsts STATUS.OK (tyGSOctalBaudSet qt0 3 19200).1 3
        Request.SIO_BAUD_GET 0).status = STATUS.OK) ∧
    ((tyGSOctalBaudSet qt0 3 57600).2.2 = STATUS.ERROR ∧
      (∀ e ∈ (tyGSOctalBaudSet qt0 3 57600).2.1, e.isWrite = false) ∧
      ((tyGSOctalBaudSet qt0 3 57600).1.dev 3).baud = (qt0.dev 3).baud ∧
      ((tyGSOctalBaudSet qt0 3 57600).1.dev 3).opts = (qt0.dev 3).opts ∧
      (tyGSOctalBaudSet qt0 3 57600).1 = qt0) :=
  ⟨(tyGSOctalBaudSet_contract vxConsts STATUS.OK qt0 3 19200 0).1 (by decide),
   (tyGSOctalBaudSet_contract vxConsts STATUS.OK qt0 3 57600 0).2 (by decide)⟩

/-- What `tyGSOctalModuleInit` does for a module that is already in the table,
in general: when the search loop stops at an index below
`tyGSOctalLastModule`, the table is left alone, the value returned is
`tyGSOctalLastModule` and the count is raised by one. -/
theorem tyGSOctalModuleInit_found (K : Consts) (env : ModEnv) (D : Driver)
    (moduleID type : String) (int_num carrier slot : Int) (modelID : Nat)
    (hdrv : 0 < D.tyGSOctalDrvNum) (htype : typeModelID K type = some modelID)
    (hval : env.ipmValidate = 0)
    (hfound : moduleSearch D.tyGSOctalModules carrier slot D.tyGSOctalLastModule 0 <
      D.tyGSOctalLastModule) :
    tyGSOctalModuleInit K env D (some moduleID) (some type) int_num carrier slot =
      ({ D with tyGSOctalLastModule := D.tyGSOctalLastModule + 1 }, [],
       some D.tyGSOctalLastModule) := by
  have h1 : ¬ D.tyGSOctalDrvNum ≤ 0 := by omega
  have h2 : ¬ moduleSearch D.tyGSOctalModules carrier slot D.tyGSOctalLastModule 0 ≥
      D.tyGSOctalLastModule := by omega
  simp only [tyGSOctalModuleInit, h1, if_false, htype, hval, ne_eq, not_true_eq_false, h2]

/-- C2 (the code at the failing input): after `tyGSOctalDrv(4)` the call
`tyGSOctalModuleInit("232-1", "232", 0x60, 0, 1)` registers carrier 0, slot 1 at
table index 0 and returns 0.  The same call again finds that entry and leaves
the table as it is, but it returns 1 and raises `tyGSOctalLastModule` from 1 to
2: the handle is not the index 0 of the module, and the count is changed. -/
theorem tyGSOctalModuleInit_again_new_handle :
    (tyGSOctalModuleInit vxConsts modEnvOk (drvInstalled 4)
        (some "232-1") (some "232") 0x60 0 1).2.2 = some 0 ∧
    drvOneModule.tyGSOctalLastModule = 1 ∧
    (drvOneModule.tyGSOctalModules 0).carrier = 0 ∧
    (drvOneModule.tyGSOctalModules 0).slot = 1 ∧
    moduleSearch drvOneModule.tyGSOctalModules 0 1 drvOneModule.tyGSOctalLastModule 0 = 0 ∧
    (tyGSOctalModuleInit vxConsts modEnvOk drvOneModule
        (some "232-1") (some "232") 0x60 0 1).2.2 = some 1 ∧
    (tyGSOctalModuleInit vxConsts modEnvOk drvOneModule
        (some "232-1") (some "232") 0x60 0 1).1.tyGSOctalLastModule = 2 ∧
    (tyGSOctalModuleInit vxConsts modEnvOk drvOneModule
        (some "232-1") (some "232") 0x60 0 1).1.tyGSOctalModules = drvOneModule.tyGSOctalModules := by
  refine ⟨by decide, by decide, by decide, by decide, by decide, by decide, by decide, ?_⟩
  rfl

/-! ### The scan loop of the dispatcher -/

/-- A property of the loop state that every visit of a created port and the
final assignment to `scan` keep is kept by the whole scan loop. -/
theorem intLoop_inv (hw : HwIn) (I : IntState → Prop)
    (hserv : ∀ st port, port < 8 → I st → (st.qt.dev port).created ≠ 0 →
      I (intService hw st port))
    (hscan : ∀ (st : IntState) (port : Nat), I st → I { st with qt := { st.qt with scan := port } }) :
    ∀ n scan st, I st → I (intLoop hw n scan st).1 := by
  intro n
  induction n with
  | zero => intro scan st h; simpa [intLoop] using h
  | succ n ih =>
      intro scan st h
      simp only [intLoop]
      split_ifs with hc hw1
      · exact ih _ _ h
      · exact hscan _ _ (hserv _ _ (Nat.mod_lt _ (by decide)) h hc)
      · exact ih _ _ (hserv _ _ (Nat.mod_lt _ (by decide)) h hc)

theorem intService_dev_ne (hw : HwIn) (st : IntState) (port q : Nat) (h : q ≠ port) :
    (intService hw st port).qt.dev q = st.qt.dev q := by
  unfold intService
  cases hw.tyITx port <;>
    (simp only []; split_ifs <;> simp [QUAD_TABLE.setDev, QUAD_TABLE.setImr, Function.update, h])

theorem intService_created (hw : HwIn) (st : IntState) (port q : Nat) :
    ((intService hw st port).qt.dev q).created = (st.qt.dev q).created := by
  by_cases h : q = port
  · subst h
    unfold intService
    cases hw.tyITx q <;>
      (simp only []; split_ifs <;> simp [QUAD_TABLE.setDev, QUAD_TABLE.setImr, Function.update])
  · rw [intService_dev_ne hw st port q h]

theorem intService_scan (hw : HwIn) (st : IntState) (port : Nat) :
    (intService hw st port).qt.scan = st.qt.scan := by
  unfold intService
  cases hw.tyITx port <;>
    (simp only []; split_ifs <;> simp [QUAD_TABLE.setDev, QUAD_TABLE.setImr])

/-- The events a visit adds concern the visited port only, and so does the
register left in `flush`. -/
theorem intService_trace (hw : HwIn) (st : IntState) (port : Nat) :
    (∃ tr, (intService hw st port).trace = st.trace ++ tr ∧
      ∀ e ∈ tr, (e.tyCall = none ∨ e.tyCall = some port) ∧
        (e.chanReg = none ∨ e.chanReg = some port)) ∧
    ((intService hw st port).flush = st.flush ∨
      (intService hw st port).flush = some (Flush.cr port) ∨
      (intService hw st port).flush = some (Flush.imr (port / 2))) := by
  unfold intService
  cases hw.tyITx port <;>
    (simp only []; split_ifs <;>
      (refine ⟨⟨_, by simp only [List.append_assoc]; rfl, ?_⟩, ?_⟩ <;>
        simp [Ev.tyCall, Ev.chanReg]))

/-- C3: whatever the status and interrupt status registers read and whatever
the module state, one run of `tyGSOctalInt` hands a port whose `created` is 0
neither to `tyIRd` nor to `tyITx`, reads and writes none of that port's channel
registers (also not in the final flush read), and leaves its `readCount`,
`writeCount` and `errorCount` (its whole device structure) as they were. -/
theorem tyGSOctalInt_skips_uncreated (hw : HwIn) (qt : QUAD_TABLE) (p : Nat)
    (h : (qt.dev p).created = 0) :
    (∀ e ∈ (tyGSOctalInt hw qt).trace, e.tyCall ≠ some p ∧ e.chanReg ≠ some p) ∧
    ((tyGSOctalInt hw qt).qt.dev p).readCount = (qt.dev p).readCount ∧
    ((tyGSOctalInt hw qt).qt.dev p).writeCount = (qt.dev p).writeCount ∧
    ((tyGSOctalInt hw qt).qt.dev p).errorCount = (qt.dev p).errorCount ∧
    (tyGSOctalInt hw qt).qt.dev p = qt.dev p := by
  have key := intLoop_inv hw
    (fun st => st.qt.dev p = qt.dev p ∧
      (∀ e ∈ st.trace, e.tyCall ≠ some p ∧ e.chanReg ≠ some p) ∧
      st.flush ≠ some (Flush.cr p))
    (by
      intro st port _ ⟨hd, htr, hfl⟩ hc
      have hne : p ≠ port := by
        rintro rfl
        rw [hd] at hc
        exact hc h
      have hne2 : port ≠ p := fun e => hne e.symm
      obtain ⟨⟨tr, htr1, htr2⟩, hfl1⟩ := intService_trace hw st port
      refine ⟨by rw [intService_dev_ne hw st port p hne, hd], ?_, ?_⟩
      · intro e he
        rw [htr1, List.mem_append] at he
        rcases he with he | he
        · exact htr e he
        · obtain ⟨h1, h2⟩ := htr2 e he
          constructor
          · rcases h1 with h1 | h1 <;> rw [h1] <;> simp [hne2]
          · rcases h2 with h2 | h2 <;> rw [h2] <;> simp [hne2]
      · rcases hfl1 with h1 | h1 | h1
        · rw [h1]; exact hfl
        · rw [h1]; simp [hne2]
        · rw [h1]; simp)
    (by
      intro st port ⟨hd, htr, hfl⟩
      exact ⟨hd, htr, hfl⟩)
    8 1 { qt := { qt with interruptCount := (qt.interruptCount + 1) % ULONG_MOD },
          trace := [], flush := none }
    ⟨rfl, by simp, by simp⟩
  obtain ⟨hd, htr, hfl⟩ := key
  have hdev : (tyGSOctalInt hw qt).qt.dev p = qt.dev p := hd
  refine ⟨?_, by rw [hdev], by rw [hdev], by rw [hdev], hdev⟩
  intro e he
  simp only [tyGSOctalInt, List.mem_append] at he
  rcases he with he | he
  · exact htr e he
  · split at he
    · next q hq =>
        simp only [List.mem_singleton] at he
        subst he
        have : q ≠ p := by
          rintro rfl
          exact hfl hq
        simp [Ev.tyCall, Ev.chanReg, this]
    · simp only [List.mem_singleton] at he
      subst he
      simp [Ev.tyCall, Ev.chanReg]
    · simp at he

/-- C3 at a concrete input: ports 2 and 5 are created, port 3 is not, and every
status bit of the hardware is set. -/
theorem tyGSOctalInt_skips_uncreated_witness :
    (∀ e ∈ (tyGSOctalInt hwBusy qtTwoPorts).trace, e.tyCall ≠ some 3 ∧ e.chanReg ≠ some 3) ∧
    ((tyGSOctalInt hwBusy qtTwoPorts).qt.dev 3).readCount = (qtTwoPorts.dev 3).readCount ∧
    ((tyGSOctalInt hwBusy qtTwoPorts).qt.dev 3).writeCount = (qtTwoPorts.dev 3).writeCount ∧
    ((tyGSOctalInt hwBusy qtTwoPorts).qt.dev 3).errorCount = (qtTwoPorts.dev 3).errorCount ∧
    (tyGSOctalInt hwBusy qtTwoPorts).qt.dev 3 = qtTwoPorts.dev 3 :=
  tyGSOctalInt_skips_uncreated hwBusy qtTwoPorts 3 (by decide)

theorem and_three_eq_zero (x : Nat) : x &&& 3 = 0 ↔ x &&& 2 = 0 ∧ x &&& 1 = 0 := by
  have h2 : x &&& 2 = (x &&& 3) &&& 2 := by
    rw [Nat.and_assoc]; rfl
  have h1 : x &&& 1 = (x &&& 3) &&& 1 := by
    rw [Nat.and_assoc]; rfl
  have hle : x &&& 3 ≤ 3 := Nat.and_le_right
  rw [h2, h1]
  generalize x &&& 3 = y at hle
  interval_cases y <;> decide

/-- The exit test of the scan loop is the pending-work condition. -/
theorem intWork_iff (hw : HwIn) (qt : QUAD_TABLE) (port : Nat) :
    intWork hw qt port = true ↔ pendingWork hw qt port := by
  unfold intWork pendingWork
  have h := and_three_eq_zero (intIsr hw qt port)
  simp only [Bool.or_eq_true, decide_eq_true_eq, ne_eq]
  constructor
  · rintro (h1 | h1)
    · by_cases h2 : intIsr hw qt port &&& 2 = 0
      · by_cases h3 : intIsr hw qt port &&& 1 = 0
        · exact absurd (h.2 ⟨h2, h3⟩) h1
        · exact Or.inr (Or.inl h3)
      · exact Or.inl h2
    · exact Or.inr (Or.inr h1)
  · rintro (h1 | h1 | h1)
    · exact Or.inl (fun h0 => h1 (h.1 h0).1)
    · exact Or.inl (fun h0 => h1 (h.1 h0).2)
    · exact Or.inr h1

/-- A visit of a port without pending work only reads the two status
registers. -/
theorem intService_nowork (hw : HwIn) (st : IntState) (port : Nat)
    (h : intWork hw st.qt port = false) :
    intService hw st port =
      { st with trace := st.trace ++
          [Ev.intLock, Ev.rd_sr port, Ev.rd_isr (port / 2), Ev.intUnlock] } := by
  have hp : ¬ pendingWork hw st.qt port := by
    rw [← intWork_iff, h]; simp
  unfold pendingWork at hp
  simp only [not_or, not_not] at hp
  obtain ⟨h2, h1, h0⟩ := hp
  simp [intService, h2, h1, h0]

/-- The line discipline calls of one visit: `tyIRd` when receive-ready is set,
then `tyITx` when transmit-ready is set, both for the visited port. -/
theorem intService_calls (hw : HwIn) (st : IntState) (port : Nat) :
    ∃ tr, (intService hw st port).trace = st.trace ++ tr ∧
      tyCalls tr =
        (if intIsr hw st.qt port &&& 0x02 ≠ 0 then [Ev.tyIRd port (hw.rhr port % 256)] else []) ++
        (if intIsr hw st.qt port &&& 0x01 ≠ 0 then [Ev.tyITx port] else []) := by
  unfold intService
  cases hw.tyITx port <;>
    (simp only []; split_ifs <;>
      (refine ⟨_, by simp only [List.append_assoc]; rfl, ?_⟩; 
       simp_all [tyCalls, Ev.tyCall, List.filter]))

/-- The scan loop, described: it passes the ports without work, reading at most
their status registers, and is left at the first busy port, if there is one. -/
theorem intLoop_spec (hw : HwIn) : ∀ n scan (st : IntState),
    ∃ pre : List Ev, (∀ e ∈ pre, e.tyCall = none ∧ e.isWrite = false) ∧
      (((intLoop hw n scan st).2 = none ∧
        (intLoop hw n scan st).1 = { st with trace := st.trace ++ pre } ∧
        ∀ j, scan ≤ j → j < scan + n → ¬ intBusy hw st.qt ((st.qt.scan + j) % 8)) ∨
       (∃ k, scan ≤ k ∧ k < scan + n ∧ intBusy hw st.qt ((st.qt.scan + k) % 8) ∧
          (∀ j, scan ≤ j → j < k → ¬ intBusy hw st.qt ((st.qt.scan + j) % 8)) ∧
          (intLoop hw n scan st).2 = some ((st.qt.scan + k) % 8) ∧
          (intLoop hw n scan st).1 =
            intLeave hw { st with trace := st.trace ++ pre } ((st.qt.scan + k) % 8))) := by
  intro n
  induction n with
  | zero =>
      intro scan st
      refine ⟨[], by simp, Or.inl ⟨rfl, by simp [intLoop], ?_⟩⟩
      intro j h1 h2
      omega
  | succ n ih =>
      intro scan st
      by_cases hc : (st.qt.dev ((st.qt.scan + scan) % 8)).created = 0
      · have hstep : intLoop hw (n + 1) scan st = intLoop hw n (scan + 1) st := by
          simp [intLoop, hc]
        have hnb : ¬ intBusy hw st.qt ((st.qt.scan + scan) % 8) := fun hb => hb.1 hc
        obtain ⟨pre, hpre, h⟩ := ih (scan + 1) st
        refine ⟨pre, hpre, ?_⟩
        rw [hstep]
        rcases h with ⟨h1, h2, h3⟩ | ⟨k, hk1, hk2, hk3, hk4, hk5, hk6⟩
        · refine Or.inl ⟨h1, h2, ?_⟩
          intro j hj1 hj2
          rcases Nat.eq_or_lt_of_le hj1 with rfl | hlt
          · exact hnb
          · exact h3 j hlt (by omega)
        · refine Or.inr ⟨k, by omega, by omega, hk3, ?_, hk5, hk6⟩
          intro j hj1 hj2
          rcases Nat.eq_or_lt_of_le hj1 with rfl | hlt
          · exact hnb
          · exact hk4 j hlt hj2
      · by_cases hw1 : intWork hw st.qt ((st.qt.scan + scan) % 8) = true
        · refine ⟨[], by simp, Or.inr ⟨scan, le_refl _, by omega, ⟨hc, hw1⟩, ?_, ?_, ?_⟩⟩
          · intro j h1 h2
            omega
          · simp [intLoop, hc, hw1]
          · simp [intLoop, hc, hw1, intLeave]
        · have hw0 : intWork hw st.qt ((st.qt.scan + scan) % 8) = false := by
            simpa using hw1
          have hnb : ¬ intBusy hw st.qt ((st.qt.scan + scan) % 8) := fun hb => hw1 hb.2
          have hserv := intService_nowork hw st ((st.qt.scan + scan) % 8) hw0
          have hstep : intLoop hw (n + 1) scan st =
              intLoop hw n (scan + 1) (intService hw st ((st.qt.scan + scan) % 8)) := by
            simp [intLoop, hc, hw0]
          obtain ⟨pre, hpre, h⟩ := ih (scan + 1) (intService hw st ((st.qt.scan + scan) % 8))
          rw [hserv] at h hstep
          simp only [List.append_assoc] at h
          refine ⟨[Ev.intLock, Ev.rd_sr ((st.qt.scan + scan) % 8),
            Ev.rd_isr ((st.qt.scan + scan) % 8 / 2), Ev.intUnlock] ++ pre, ?_, ?_⟩
          · intro e he
            rw [List.mem_append] at he
            rcases he with he | he
            · simp only [List.mem_cons, List.mem_singleton, List.not_mem_nil, or_false] at he
              rcases he with rfl | rfl | rfl | rfl <;> simp [Ev.tyCall, Ev.isWrite]
            · exact hpre e he
          · rw [hstep]
            rcases h with ⟨h1, h2, h3⟩ | ⟨k, hk1, hk2, hk3, hk4, hk5, hk6⟩
            · refine Or.inl ⟨h1, h2, ?_⟩
              intro j hj1 hj2
              rcases Nat.eq_or_lt_of_le hj1 with rfl | hlt
              · exact hnb
              · exact h3 j hlt (by omega)
            · refine Or.inr ⟨k, by omega, by omega, hk3, ?_, hk5, hk6⟩
              intro j hj1 hj2
              rcases Nat.eq_or_lt_of_le hj1 with rfl | hlt
              · exact hnb
              · exact hk4 j hlt hj2

theorem tyCalls_append (a b : List Ev) : tyCalls (a ++ b) = tyCalls a ++ tyCalls b := by
  simp [tyCalls]

theorem tyCalls_eq_nil (tr : List Ev) (h : ∀ e ∈ tr, e.tyCall = none ∧ e.isWrite = false) :
    tyCalls tr = [] := by
  simp only [tyCalls, List.filter_eq_nil_iff]
  intro e he
  simp [(h e he).1]

/-- Every port 0..7 is met by the scan `(scan + j) % 8`, `j = 1..8`. -/
theorem scan_reaches (scan p : Nat) (hp : p < 8) :
    ∃ j, 1 ≤ j ∧ j < 1 + 8 ∧ (scan + j) % 8 = p :=
  ⟨(p + 8 - scan % 8 + 7) % 8 + 1, by omega, by omega, by omega⟩

/-- One run of `tyGSOctalInt`, described through `intLoop_spec`. -/
theorem tyGSOctalInt_spec (hw : HwIn) (qt : QUAD_TABLE) :
    ((tyGSOctalInt hw qt).serviced = none ∧
      (∀ j, 1 ≤ j → j < 1 + 8 → ¬ intBusy hw qt ((qt.scan + j) % 8)) ∧
      (tyGSOctalInt hw qt).qt = { qt with interruptCount := (qt.interruptCount + 1) % ULONG_MOD } ∧
      (∀ e ∈ (tyGSOctalInt hw qt).trace, e.tyCall = none ∧ e.isWrite = false)) ∨
    (∃ k pre, 1 ≤ k ∧ k < 1 + 8 ∧ intBusy hw qt ((qt.scan + k) % 8) ∧
      (∀ j, 1 ≤ j → j < k → ¬ intBusy hw qt ((qt.scan + j) % 8)) ∧
      (∀ e ∈ pre, e.tyCall = none ∧ e.isWrite = false) ∧
      (tyGSOctalInt hw qt).serviced = some ((qt.scan + k) % 8) ∧
      (tyGSOctalInt hw qt).qt =
        (intLeave hw { qt := { qt with interruptCount := (qt.interruptCount + 1) % ULONG_MOD },
                       trace := pre, flush := none } ((qt.scan + k) % 8)).qt ∧
      ∃ tail, (∀ e ∈ tail, e.tyCall = none ∧ e.isWrite = false) ∧
        (tyGSOctalInt hw qt).trace =
          (intLeave hw { qt := { qt with interruptCount := (qt.interruptCount + 1) % ULONG_MOD },
                         trace := pre, flush := none } ((qt.scan + k) % 8)).trace ++ tail) := by
  obtain ⟨pre, hpre, h⟩ := intLoop_spec hw 8 1
    { qt := { qt with interruptCount := (qt.interruptCount + 1) % ULONG_MOD },
      trace := [], flush := none }
  simp only [List.nil_append] at h
  rcases h with ⟨h1, h2, h3⟩ | ⟨k, hk1, hk2, hk3, hk4, hk5, hk6⟩
  · refine Or.inl ⟨by simp [tyGSOctalInt, h1], h3, by simp [tyGSOctalInt, h2], ?_⟩
    simp only [tyGSOctalInt, h2, List.append_nil]
    exact hpre
  · refine Or.inr ⟨k, pre, hk1, hk2, hk3, hk4, hpre, by simp [tyGSOctalInt, hk5],
      by simp [tyGSOctalInt, hk6], ?_⟩
    simp only [tyGSOctalInt, hk6]
    refine ⟨_, ?_, rfl⟩
    intro e he
    split at he
    · simp only [List.mem_singleton] at he
      subst he
      simp [Ev.tyCall, Ev.isWrite]
    · simp only [List.mem_singleton] at he
      subst he
      simp [Ev.tyCall, Ev.isWrite]
    · simp at he

theorem intBusy_iff (hw : HwIn) (qt : QUAD_TABLE) (port : Nat) :
    intBusy hw qt port ↔ ((qt.dev port).created ≠ 0 ∧ pendingWork hw qt port) := by
  unfold intBusy
  rw [intWork_iff]

/-- A serviced port is the first created port with pending work after `scan`;
only its device structure changes and only it is handed to the line
discipline. -/
theorem tyGSOctalInt_serviced_some (hw : HwIn) (qt : QUAD_TABLE) :
    ∀ port, (tyGSOctalInt hw qt).serviced = some port →
    ∃ k, 1 ≤ k ∧ k ≤ 8 ∧ port = (qt.scan + k) % 8 ∧
      (qt.dev port).created ≠ 0 ∧ pendingWork hw qt port ∧
      (∀ j, 1 ≤ j → j < k →
        ¬ ((qt.dev ((qt.scan + j) % 8)).created ≠ 0 ∧ pendingWork hw qt ((qt.scan + j) % 8))) ∧
      (tyGSOctalInt hw qt).qt.scan = port ∧
      (∀ e ∈ (tyGSOctalInt hw qt).trace, e.tyCall = none ∨ e.tyCall = some port) ∧
      tyCalls (tyGSOctalInt hw qt).trace =
        (if intIsr hw qt port &&& 0x02 ≠ 0 then [Ev.tyIRd port (hw.rhr port % 256)] else []) ++
        (if intIsr hw qt port &&& 0x01 ≠ 0 then [Ev.tyITx port] else []) ∧
      (∀ q, q ≠ port → (tyGSOctalInt hw qt).qt.dev q = qt.dev q) := by
  have hbusy := intBusy_iff hw qt
  intro port hs
  rcases tyGSOctalInt_spec hw qt with ⟨h1, _⟩ | ⟨k, pre, hk1, hk2, hk3, hk4, hpre, hk5, hk6, tail, ht1, ht2⟩
  · rw [h1] at hs; cases hs
  · rw [hk5] at hs
    injection hs with hs
    rw [hs] at hk3 hk6 ht2
    obtain ⟨hc, hp⟩ := (hbusy port).1 hk3
    obtain ⟨⟨tr, htr1, htr2⟩, _⟩ := intService_trace hw
      { qt := { qt with interruptCount := (qt.interruptCount + 1) % ULONG_MOD },
        trace := pre, flush := none } port
    obtain ⟨tr2, htr3, htr4⟩ := intService_calls hw
      { qt := { qt with interruptCount := (qt.interruptCount + 1) % ULONG_MOD },
        trace := pre, flush := none } port
    have htr : tr2 = tr := List.append_cancel_left (htr3.symm.trans htr1)
    subst htr
    have hpre0 := tyCalls_eq_nil pre hpre
    have htail0 := tyCalls_eq_nil tail ht1
    refine ⟨k, hk1, by omega, hs.symm, hc, hp, ?_, ?_, ?_, ?_, ?_⟩
    · intro j hj1 hj2 hb
      exact hk4 j hj1 hj2 ((hbusy _).2 hb)
    · rw [hk6]; rfl
    · intro e he
      rw [ht2] at he
      simp only [intLeave, htr1, List.mem_append] at he
      rcases he with (he | he) | he
      · exact Or.inl (hpre e he).1
      · exact (htr2 e he).1
      · exact Or.inl (ht1 e he).1
    · rw [ht2]
      simp only [intLeave, htr1, tyCalls_append, hpre0, htail0, htr4, List.nil_append,
        List.append_nil]
      rfl
    · intro q hq
      rw [hk6]
      simp only [intLeave]
      rw [intService_dev_ne hw _ port q hq]

/-- No port is serviced exactly when no created port has pending work. -/
theorem tyGSOctalInt_serviced_none_iff (hw : HwIn) (qt : QUAD_TABLE) :
    (tyGSOctalInt hw qt).serviced = none ↔
    ∀ p, p < 8 → (qt.dev p).created ≠ 0 → ¬ pendingWork hw qt p := by
  have hbusy := intBusy_iff hw qt
  have hA := tyGSOctalInt_serviced_some hw qt
  constructor
  · intro hs p hp hc hpw
    rcases tyGSOctalInt_spec hw qt with ⟨_, h2, _⟩ | ⟨k, pre, _, _, _, _, _, hk5, _⟩
    · obtain ⟨j, hj1, hj2, hj3⟩ := scan_reaches qt.scan p hp
      have := h2 j hj1 hj2
      rw [hj3] at this
      exact this ((hbusy p).2 ⟨hc, hpw⟩)
    · rw [hk5] at hs; cases hs
  · intro hall
    cases hs : (tyGSOctalInt hw qt).serviced with
    | none => rfl
    | some port =>
        obtain ⟨k, _, _, hk, hc, hp, _⟩ := hA port hs
        exact absurd hp (hall port (by omega) hc)

/-- C5: one run of `tyGSOctalInt` services at most one port.  A serviced port
is the first created port with pending work in the circular order
`(scan + 1) % 8, (scan + 2) % 8, ...`; `scan` becomes that port, the line
discipline is called for that port only (`tyIRd` if receive-ready is set, then
one `tyITx` if transmit-ready is set), and the device structure of every other
port, so its counters, is unchanged.  No port is serviced exactly when no
created port 0..7 has pending work, and then `scan` and every device structure
are unchanged and the line discipline is not called.  In particular, when port
5 is created and of the pending-work conditions only the transmit-ready bit of
port 5 holds, the line discipline calls are exactly one `tyITx` for port 5 and
`scan` becomes 5. -/
theorem tyGSOctalInt_services_first_pending (hw : HwIn) (qt : QUAD_TABLE) :
    (∀ port, (tyGSOctalInt hw qt).serviced = some port →
      ∃ k, 1 ≤ k ∧ k ≤ 8 ∧ port = (qt.scan + k) % 8 ∧
        (qt.dev port).created ≠ 0 ∧ pendingWork hw qt port ∧
        (∀ j, 1 ≤ j → j < k →
          ¬ ((qt.dev ((qt.scan + j) % 8)).created ≠ 0 ∧ pendingWork hw qt ((qt.scan + j) % 8))) ∧
        (tyGSOctalInt hw qt).qt.scan = port ∧
        (∀ e ∈ (tyGSOctalInt hw qt).trace, e.tyCall = none ∨ e.tyCall = some port) ∧
        tyCalls (tyGSOctalInt hw qt).trace =
          (if intIsr hw qt port &&& 0x02 ≠ 0 then [Ev.tyIRd port (hw.rhr port % 256)] else []) ++
          (if intIsr hw qt port &&& 0x01 ≠ 0 then [Ev.tyITx port] else []) ∧
        (∀ q, q ≠ port → (tyGSOctalInt hw qt).qt.dev q = qt.dev q)) ∧
    ((tyGSOctalInt hw qt).serviced = none ↔
      ∀ p, p < 8 → (qt.dev p).created ≠ 0 → ¬ pendingWork hw qt p) ∧
    ((tyGSOctalInt hw qt).serviced = none →
      (tyGSOctalInt hw qt).qt.scan = qt.scan ∧
      (∀ q, (tyGSOctalInt hw qt).qt.dev q = qt.dev q) ∧
      tyCalls (tyGSOctalInt hw qt).trace = []) ∧
    ((qt.dev 5).created ≠ 0 → intIsr hw qt 5 &&& 0x01 ≠ 0 → intIsr hw qt 5 &&& 0x02 = 0 →
      intSr hw 5 &&& 0xf0 = 0 →
      (∀ q, q < 8 → q ≠ 5 → (qt.dev q).created ≠ 0 → ¬ pendingWork hw qt q) →
      (tyGSOctalInt hw qt).serviced = some 5 ∧ (tyGSOctalInt hw qt).qt.scan = 5 ∧
      tyCalls (tyGSOctalInt hw qt).trace = [Ev.tyITx 5] ∧
      (∀ q, q ≠ 5 → (tyGSOctalInt hw qt).qt.dev q = qt.dev q)) := by
  have hA := tyGSOctalInt_serviced_some hw qt
  have hB := tyGSOctalInt_serviced_none_iff hw qt
  refine ⟨hA, hB, ?_, ?_⟩
  · intro hs
    rcases tyGSOctalInt_spec hw qt with ⟨_, _, h3, h4⟩ | ⟨k, pre, _, _, _, _, _, hk5, _⟩
    · refine ⟨by rw [h3], by intro q; rw [h3], tyCalls_eq_nil _ h4⟩
    · rw [hk5] at hs; cases hs
  · intro hc h1 h2 h0 hothers
    have hp5 : pendingWork hw qt 5 := Or.inr (Or.inl h1)
    cases hs : (tyGSOctalInt hw qt).serviced with
    | none => exact absurd hp5 (hB.1 hs 5 (by decide) hc)
    | some port =>
        obtain ⟨k, _, _, hk, hcp, hpp, _, hscan, _, hcalls, hdev⟩ := hA port hs
        have hport : port = 5 := by
          by_contra hne
          exact hothers port (by omega) hne hcp hpp
        subst hport
        refine ⟨rfl, hscan, ?_, hdev⟩
        rw [hcalls, if_neg (not_not.2 h2), if_pos h1]
        rfl

/-! ### Round robin -/

set_option maxRecDepth 1000000 in
theorem rrCheckAll_true : rrCheckAll = true := by decide!

theorem rr_step (m s p : Nat) (hm : m < 256) (hs : s < 8) (hp : p < 8)
    (hb : m.testBit p = true) :
    1 ≤ pot m s p ∧ pot m s p ≤ popc m ∧ pot m p p = popc m ∧ nxt m s < 8 ∧
    (nxt m s = p → pot m s p = 1) ∧ (nxt m s ≠ p → pot m (nxt m s) p + 1 = pot m s p) := by
  have h := rrCheckAll_true
  simp only [rrCheckAll, List.all_eq_true, List.mem_range] at h
  have h1 := h m hm s hs p hp
  simp only [rrCheck, hb, Bool.not_true, Bool.false_or, Bool.and_eq_true, decide_eq_true_eq] at h1
  obtain ⟨⟨⟨⟨a, b⟩, c⟩, d⟩, e⟩ := h1
  refine ⟨a, b, c, d, ?_, ?_⟩
  · intro hq
    simpa [hq] using e
  · intro hq
    simpa [hq] using e

theorem maskOf_lt (c : Nat → Bool) : maskOf c < 256 := by
  unfold maskOf
  split_ifs <;> omega

theorem maskOf_testBit (c : Nat → Bool) (p : Nat) (hp : p < 8) :
    (maskOf c).testBit p = c p := by
  unfold maskOf
  interval_cases p <;>
    (generalize c 0 = b0; generalize c 1 = b1; generalize c 2 = b2; generalize c 3 = b3
     generalize c 4 = b4; generalize c 5 = b5; generalize c 6 = b6; generalize c 7 = b7
     revert b0 b1 b2 b3 b4 b5 b6 b7
     decide!)

theorem createdMask_testBit (qt : QUAD_TABLE) (p : Nat) (hp : p < 8) :
    (createdMask qt).testBit p = decide ((qt.dev p).created ≠ 0) :=
  maskOf_testBit _ p hp

theorem popc_createdMask (qt : QUAD_TABLE) : popc (createdMask qt) = numCreated qt := by
  unfold popc numCreated
  congr 1
  apply List.filter_congr
  intro p hp
  exact createdMask_testBit qt p (List.mem_range.1 hp)

theorem nxtLoop_first (m s k : Nat) (hk : m.testBit ((s + k) % 8) = true) :
    ∀ n start, start ≤ k → k < start + n →
      (∀ j, start ≤ j → j < k → m.testBit ((s + j) % 8) = false) →
      nxtLoop m s n start = (s + k) % 8 := by
  intro n
  induction n with
  | zero => intro start h1 h2; omega
  | succ n ih =>
      intro start h1 h2 h3
      rcases Nat.eq_or_lt_of_le h1 with rfl | hlt
      · simp [nxtLoop, hk]
      · have := h3 start (le_refl _) hlt
        simp only [nxtLoop, this, Bool.false_eq_true, if_false]
        exact ih (start + 1) hlt (by omega) (fun j hj1 hj2 => h3 j (by omega) hj2)

/-- A run of the dispatcher keeps every `created` flag. -/
theorem tyGSOctalInt_created (hw : HwIn) (qt : QUAD_TABLE) (q : Nat) :
    ((tyGSOctalInt hw qt).qt.dev q).created = (qt.dev q).created := by
  have key := intLoop_inv hw
    (fun st => ∀ q, (st.qt.dev q).created = (qt.dev q).created)
    (by
      intro st port _ h _ q
      rw [intService_created, h])
    (by
      intro st port h q
      exact h q)
    8 1 { qt := { qt with interruptCount := (qt.interruptCount + 1) % ULONG_MOD },
          trace := [], flush := none }
    (fun _ => rfl)
  exact key q

theorem createdMask_tyGSOctalInt (hw : HwIn) (qt : QUAD_TABLE) :
    createdMask (tyGSOctalInt hw qt).qt = createdMask qt := by
  unfold createdMask
  congr 1
  funext p
  rw [tyGSOctalInt_created]

theorem numCreated_tyGSOctalInt (hw : HwIn) (qt : QUAD_TABLE) :
    numCreated (tyGSOctalInt hw qt).qt = numCreated qt := by
  rw [← popc_createdMask, ← popc_createdMask, createdMask_tyGSOctalInt]

/-- When every created port has pending work and there is a created port, the
dispatcher services the first created port after `scan` and leaves `scan` at
it. -/
theorem tyGSOctalInt_pending_step (hw : HwIn) (qt : QUAD_TABLE)
    (hall : ∀ p, p < 8 → (qt.dev p).created ≠ 0 → pendingWork hw qt p)
    (p0 : Nat) (hp0 : p0 < 8) (hc0 : (qt.dev p0).created ≠ 0) :
    (tyGSOctalInt hw qt).serviced = some (nxt (createdMask qt) (qt.scan % 8)) ∧
    (tyGSOctalInt hw qt).qt.scan = nxt (createdMask qt) (qt.scan % 8) := by
  have hA := tyGSOctalInt_serviced_some hw qt
  have hB := tyGSOctalInt_serviced_none_iff hw qt
  cases hs : (tyGSOctalInt hw qt).serviced with
  | none => exact absurd (hall p0 hp0 hc0) (hB.1 hs p0 hp0 hc0)
  | some port =>
      obtain ⟨k, hk1, hk2, hk, hc, _, hfirst, hscan, _⟩ := hA port hs
      have hnxt : nxt (createdMask qt) (qt.scan % 8) = (qt.scan % 8 + k) % 8 := by
        unfold nxt
        apply nxtLoop_first _ _ k _ 8 1 hk1 (by omega)
        · intro j hj1 hj2
          have hj8 : (qt.scan % 8 + j) % 8 < 8 := Nat.mod_lt _ (by decide)
          rw [createdMask_testBit qt _ hj8]
          have heq : (qt.scan % 8 + j) % 8 = (qt.scan + j) % 8 := by omega
          rw [heq]
          by_contra hcon
          have hcr : (qt.dev ((qt.scan + j) % 8)).created ≠ 0 := by simpa using hcon
          exact hfirst j hj1 hj2 ⟨hcr, hall _ (Nat.mod_lt _ (by decide)) hcr⟩
        · have hk8 : (qt.scan % 8 + k) % 8 < 8 := Nat.mod_lt _ (by decide)
          rw [createdMask_testBit qt _ hk8]
          have heq : (qt.scan % 8 + k) % 8 = port := by omega
          rw [heq]
          simpa using hc
      have hport : nxt (createdMask qt) (qt.scan % 8) = port := by
        rw [hnxt, hk]; omega
      rw [hport]
      exact ⟨rfl, hscan⟩

/-- The count behind round robin fairness: `p` is serviced at run number
`pot`, and then at every `N`-th run. -/
theorem runInts_count (p : Nat) (hp : p < 8) : ∀ (hws : List HwIn) (qt : QUAD_TABLE),
    (qt.dev p).created ≠ 0 → AllPending qt hws →
    (hws.length + numCreated qt - pot (createdMask qt) (qt.scan % 8) p) / numCreated qt ≤
      (runInts qt hws).count (some p) := by
  intro hws
  induction hws with
  | nil =>
      intro qt hc _
      have hb : (createdMask qt).testBit p = true := by
        rw [createdMask_testBit qt p hp]; simpa using hc
      obtain ⟨h1, h2, _⟩ := rr_step (createdMask qt) (qt.scan % 8) p (maskOf_lt _)
        (Nat.mod_lt _ (by decide)) hp hb
      rw [popc_createdMask] at h2
      simp only [List.length_nil, Nat.zero_add, runInts, List.count_nil, Nat.le_zero_eq]
      apply Nat.div_eq_of_lt
      omega
  | cons hw rest ih =>
      intro qt hc hpend
      obtain ⟨hall, hrest⟩ := hpend
      have hb : (createdMask qt).testBit p = true := by
        rw [createdMask_testBit qt p hp]; simpa using hc
      obtain ⟨h1, h2, h3, h4, h5, h6⟩ := rr_step (createdMask qt) (qt.scan % 8) p (maskOf_lt _)
        (Nat.mod_lt _ (by decide)) hp hb
      rw [popc_createdMask] at h2 h3
      obtain ⟨hserv, hscan⟩ := tyGSOctalInt_pending_step hw qt hall p hp hc
      have hc1 : ((tyGSOctalInt hw qt).qt.dev p).created ≠ 0 := by
        rw [tyGSOctalInt_created]; exact hc
      have hih := ih (tyGSOctalInt hw qt).qt hc1 hrest
      rw [numCreated_tyGSOctalInt, createdMask_tyGSOctalInt, hscan, Nat.mod_eq_of_lt h4] at hih
      have hN : 0 < numCreated qt := by omega
      simp only [runInts, List.length_cons, hserv]
      by_cases hq : nxt (createdMask qt) (qt.scan % 8) = p
      · rw [hq] at hih
        rw [h3] at hih
        rw [hq, List.count_cons_self, h5 hq]
        have e1 : rest.length + 1 + numCreated qt - 1 = rest.length + numCreated qt := by omega
        have e2 : rest.length + numCreated qt - numCreated qt = rest.length := by omega
        rw [e1, Nat.add_div_right _ hN]
        rw [e2] at hih
        omega
      · have hne : (some (nxt (createdMask qt) (qt.scan % 8)) : Option Nat) ≠ some p := by
          intro h; exact hq (Option.some.inj h)
        rw [List.count_cons_of_ne hne.symm]
        have e1 : rest.length + 1 + numCreated qt - pot (createdMask qt) (qt.scan % 8) p =
            rest.length + numCreated qt -
              pot (createdMask qt) (nxt (createdMask qt) (qt.scan % 8)) p := by
          have := h6 hq
          omega
        rw [e1]
        exact hih

/-- C4 (round robin fairness): on a module with `N ≥ 2` created ports, from any
scan cursor, when at each of `M` consecutive runs of `tyGSOctalInt` every
created port signals pending work (masked receive-ready or transmit-ready, or a
non-zero error nibble), every created port is the serviced port of at least
`M / N` of these runs. -/
theorem tyGSOctalInt_round_robin (qt : QUAD_TABLE) (hws : List HwIn)
    (hN : 2 ≤ numCreated qt) (hpend : AllPending qt hws)
    (p : Nat) (hp : p < 8) (hc : (qt.dev p).created ≠ 0) :
    hws.length / numCreated qt ≤ (runInts qt hws).count (some p) := by
  have _hpos : 0 < numCreated qt := Nat.lt_of_lt_of_le (by decide) hN
  have hb : (createdMask qt).testBit p = true := by
    rw [createdMask_testBit qt p hp]; simpa using hc
  obtain ⟨_, h2, _⟩ := rr_step (createdMask qt) (qt.scan % 8) p (maskOf_lt _)
    (Nat.mod_lt _ (by decide)) hp hb
  rw [popc_createdMask] at h2
  refine le_trans (Nat.div_le_div_right ?_) (runInts_count p hp hws qt hc hpend)
  omega

/-- C4 at a concrete input: ports 2 and 5 are created, every status bit is set
at each of five runs; port 5 is serviced at least `5 / 2` times. -/
theorem tyGSOctalInt_round_robin_witness :
    2 ≤ numCreated qtTwoPorts ∧
    AllPending qtTwoPorts [hwBusy, hwBusy, hwBusy, hwBusy, hwBusy] ∧
    [hwBusy, hwBusy, hwBusy, hwBusy, hwBusy].length / numCreated qtTwoPorts ≤
      (runInts qtTwoPorts [hwBusy, hwBusy, hwBusy, hwBusy, hwBusy]).count (some 5) :=
  ⟨by decide, by decide,
   tyGSOctalInt_round_robin qtTwoPorts [hwBusy, hwBusy, hwBusy, hwBusy, hwBusy]
     (by decide) (by decide) 5 (by decide) (by decide)⟩

/-- C5 at a concrete input: on `qtTx5` with only the transmit-ready bit of port
5 set, port 5 is serviced, `scan` becomes 5 and the only line discipline call
is one `tyITx` for port 5. -/
theorem tyGSOctalInt_services_first_pending_witness :
    (tyGSOctalInt hwTx5 qtTx5).serviced = some 5 ∧ (tyGSOctalInt hwTx5 qtTx5).qt.scan = 5 ∧
    tyCalls (tyGSOctalInt hwTx5 qtTx5).trace = [Ev.tyITx 5] ∧
    (∀ q, q ≠ 5 → (tyGSOctalInt hwTx5 qtTx5).qt.dev q = qtTx5.dev q) :=
  (tyGSOctalInt_services_first_pending hwTx5 qtTx5).2.2.2
    (by decide) (by decide) (by decide) (by decide) (by decide)

/-! ### Reboot hook -/

theorem moduleEvents_append (mod : Nat) (a b : List (Nat × Ev)) :
    moduleEvents mod (a ++ b) = moduleEvents mod a ++ moduleEvents mod b := by
  simp [moduleEvents]

theorem moduleEvents_map (mod m : Nat) (l : List Ev) :
    moduleEvents mod (l.map (fun e => (m, e))) = if m = mod then l else [] := by
  unfold moduleEvents
  split_ifs with h
  · subst h
    induction l with
    | nil => rfl
    | cons e l ih => simpa using ih
  · induction l with
    | nil => rfl
    | cons e l ih => simp [h]

/-- The port loop of the reboot hook, after `n` ports. -/
theorem rebootFold_spec (qt : QUAD_TABLE) : ∀ n,
    ((List.range n).foldl rebootPort (qt, [])).1.imr = qt.imr ∧
    (∀ q, ((((List.range n).foldl rebootPort (qt, [])).1.dev q).created = (qt.dev q).created)) ∧
    (∀ q, q < n → (qt.dev q).created ≠ 0 →
      (((List.range n).foldl rebootPort (qt, [])).1.dev q).irqEnable = 0) ∧
    (∀ q, (n ≤ q ∨ (qt.dev q).created = 0) →
      ((List.range n).foldl rebootPort (qt, [])).1.dev q = qt.dev q) ∧
    (∀ b v, Ev.wr_imr b v ∈ ((List.range n).foldl rebootPort (qt, [])).2 ↔
      (v = 0 ∧ ∃ q, q < n ∧ (qt.dev q).created ≠ 0 ∧ q / 2 = b)) := by
  intro n
  induction n with
  | zero => simp
  | succ n ih =>
      obtain ⟨h1, h2, h3, h4, h5⟩ := ih
      rw [List.range_succ, List.foldl_append]
      simp only [List.foldl_cons, List.foldl_nil]
      generalize (List.range n).foldl rebootPort (qt, []) = r at h1 h2 h3 h4 h5
      by_cases hc : (r.1.dev n).created = 0
      · have hcq : (qt.dev n).created = 0 := by rw [← h2]; exact hc
        have hr : (rebootPort r n).1 = r.1 := by simp [rebootPort, hc]
        refine ⟨by rw [hr]; exact h1, by rw [hr]; exact h2, ?_, ?_, ?_⟩
        · intro q hq hcr
          rw [hr]
          rcases Nat.lt_succ_iff_lt_or_eq.1 hq with hlt | rfl
          · exact h3 q hlt hcr
          · exact absurd hcq hcr
        · intro q hq
          rw [hr]
          rcases hq with hq | hq
          · exact h4 q (Or.inl (by omega))
          · exact h4 q (Or.inr hq)
        · intro b v
          have : Ev.wr_imr b v ∈ (rebootPort r n).2 ↔ Ev.wr_imr b v ∈ r.2 := by
            simp [rebootPort, hc]
          rw [this, h5]
          constructor
          · rintro ⟨hv, q, hq1, hq2, hq3⟩
            exact ⟨hv, q, by omega, hq2, hq3⟩
          · rintro ⟨hv, q, hq1, hq2, hq3⟩
            rcases Nat.lt_succ_iff_lt_or_eq.1 hq1 with hlt | rfl
            · exact ⟨hv, q, hlt, hq2, hq3⟩
            · exact absurd hcq hq2
      · have hcq : (qt.dev n).created ≠ 0 := by rw [← h2]; exact hc
        have hr : (rebootPort r n).1 = r.1.setDev n { r.1.dev n with irqEnable := 0 } := by
          simp [rebootPort, hc]
        refine ⟨by rw [hr]; exact h1, ?_, ?_, ?_, ?_⟩
        · intro q
          rw [hr]
          by_cases hq : q = n
          · subst hq
            simp [QUAD_TABLE.setDev, h2]
          · simp [QUAD_TABLE.setDev, Function.update, hq, h2]
        · intro q hq hcr
          rw [hr]
          by_cases hqn : q = n
          · subst hqn
            simp [QUAD_TABLE.setDev]
          · simp only [QUAD_TABLE.setDev, Function.update, hqn, dite_false]
            exact h3 q (by omega) hcr
        · intro q hq
          rw [hr]
          have hqn : q ≠ n := by
            rintro rfl
            rcases hq with hq | hq
            · omega
            · exact hcq hq
          simp only [QUAD_TABLE.setDev, Function.update, hqn, dite_false]
          rcases hq with hq | hq
          · exact h4 q (Or.inl (by omega))
          · exact h4 q (Or.inr hq)
        · intro b v
          have : Ev.wr_imr b v ∈ (rebootPort r n).2 ↔
              (Ev.wr_imr b v ∈ r.2 ∨ (b = n / 2 ∧ v = 0)) := by
            simp [rebootPort, hc]
          rw [this, h5]
          constructor
          · rintro (⟨hv, q, hq1, hq2, hq3⟩ | ⟨hb, hv⟩)
            · exact ⟨hv, q, by omega, hq2, hq3⟩
            · exact ⟨hv, n, by omega, hcq, hb.symm⟩
          · rintro ⟨hv, q, hq1, hq2, hq3⟩
            rcases Nat.lt_succ_iff_lt_or_eq.1 hq1 with hlt | rfl
            · exact Or.inl ⟨hv, q, hlt, hq2, hq3⟩
            · exact Or.inr ⟨hq3.symm, hv⟩

/-- The module loop of the reboot hook, after `n` modules. -/
theorem rebootHook_spec (D : Driver) : ∀ n,
    ((List.range n).foldl rebootStep (D, [])).1.tyGSOctalLastModule = D.tyGSOctalLastModule ∧
    (∀ mod, ((List.range n).foldl rebootStep (D, [])).1.tyGSOctalModules mod =
      if mod < n then (rebootModule (D.tyGSOctalModules mod)).1 else D.tyGSOctalModules mod) ∧
    (∀ mod, moduleEvents mod ((List.range n).foldl rebootStep (D, [])).2 =
      if mod < n then (rebootModule (D.tyGSOctalModules mod)).2 else []) := by
  intro n
  induction n with
  | zero => simp [moduleEvents]
  | succ n ih =>
      obtain ⟨h1, h2, h3⟩ := ih
      rw [List.range_succ, List.foldl_append]
      simp only [List.foldl_cons, List.foldl_nil]
      generalize (List.range n).foldl rebootStep (D, []) = R at h1 h2 h3
      have hn : R.1.tyGSOctalModules n = D.tyGSOctalModules n := by
        rw [h2 n]; simp
      refine ⟨by simpa [rebootStep, Driver.setModule] using h1, ?_, ?_⟩
      · intro mod
        by_cases hm : mod = n
        · subst hm
          simp [rebootStep, Driver.setModule, hn]
        · simp only [rebootStep, Driver.setModule, Function.update, hm, dite_false]
          rw [h2 mod]
          have : mod < n + 1 ↔ mod < n := by omega
          simp only [this]
      · intro mod
        simp only [rebootStep, moduleEvents_append, moduleEvents_map, h3 mod, hn]
        by_cases hm : mod = n
        · subst hm
          simp
        · have h4 : ¬ n = mod := fun h => hm h.symm
          have : mod < n + 1 ↔ mod < n := by omega
          simp [h4, this]

/-- Writes of 0 only, at least one of them to `block`, leave 0 in the mask
register of `block`. -/
theorem foldl_imrWrite_zero (block : Nat) : ∀ (tr : List Ev) (cur : Nat),
    (∀ v, Ev.wr_imr block v ∈ tr → v = 0) →
    (cur = 0 ∨ ∃ v, Ev.wr_imr block v ∈ tr) → tr.foldl (imrWrite block) cur = 0 := by
  intro tr
  induction tr with
  | nil =>
      intro cur _ h
      rcases h with h | ⟨v, hv⟩
      · simpa using h
      · simp at hv
  | cons e tr ih =>
      intro cur hall h
      simp only [List.foldl_cons]
      apply ih
      · intro v hv
        exact hall v (List.mem_cons_of_mem _ hv)
      · by_cases he : ∃ v, e = Ev.wr_imr block v
        · obtain ⟨v, rfl⟩ := he
          have hv := hall v (List.mem_cons_self _ _)
          subst hv
          left
          simp [imrWrite]
        · have hsame : imrWrite block cur e = cur := by
            cases e <;> simp only [imrWrite]
            next b v =>
              split_ifs with hb
              · subst hb
                exact absurd ⟨v, rfl⟩ he
              · rfl
          rw [hsame]
          rcases h with h | ⟨v, hv⟩
          · exact Or.inl h
          · right
            refine ⟨v, ?_⟩
            rcases List.mem_cons.1 hv with hv | hv
            · exact absurd ⟨v, hv.symm⟩ he
            · exact hv

/-- Events without a write to the mask register of `block` leave it alone. -/
theorem foldl_imrWrite_same (block : Nat) : ∀ (tr : List Ev) (cur : Nat),
    (∀ v, Ev.wr_imr block v ∉ tr) → tr.foldl (imrWrite block) cur = cur := by
  intro tr
  induction tr with
  | nil => intro cur _; rfl
  | cons e tr ih =>
      intro cur hall
      simp only [List.foldl_cons]
      have hsame : imrWrite block cur e = cur := by
        cases e <;> simp only [imrWrite]
        next b v =>
          split_ifs with hb
          · subst hb
            exact absurd (List.mem_cons_self _ _) (hall v)
          · rfl
      rw [hsame]
      exact ih cur (fun v hv => hall v (List.mem_cons_of_mem _ hv))

/-- C6: whatever the driver state (number of registered modules, created
ports, shadow masks, `irqEnable` values) and whatever the hardware mask
registers held, after `tyGSOctalRebootHook` every created port of every
registered module has `irqEnable = 0`, every value the hook wrote to a mask
register of that module is 0, one such write went to the block of the port, and
the hardware mask register of that block holds 0. -/
theorem tyGSOctalRebootHook_quiesces (D : Driver) (h : Nat → Nat) (mod port : Nat)
    (hm : mod < D.tyGSOctalLastModule) (hp : port < 8)
    (hc : ((D.tyGSOctalModules mod).dev port).created ≠ 0) :
    (((tyGSOctalRebootHook D).1.tyGSOctalModules mod).dev port).irqEnable = 0 ∧
    (∀ b v, Ev.wr_imr b v ∈ moduleEvents mod (tyGSOctalRebootHook D).2 → v = 0) ∧
    Ev.wr_imr (port / 2) 0 ∈ moduleEvents mod (tyGSOctalRebootHook D).2 ∧
    hwImr h (moduleEvents mod (tyGSOctalRebootHook D).2) (port / 2) = 0 := by
  obtain ⟨_, h2, h3⟩ := rebootHook_spec D D.tyGSOctalLastModule
  obtain ⟨_, _, f3, _, f5⟩ := rebootFold_spec (D.tyGSOctalModules mod) 8
  have e1 : (tyGSOctalRebootHook D).1.tyGSOctalModules mod =
      (rebootModule (D.tyGSOctalModules mod)).1 := by
    unfold tyGSOctalRebootHook
    rw [h2 mod, if_pos hm]
  have e2 : moduleEvents mod (tyGSOctalRebootHook D).2 =
      (rebootModule (D.tyGSOctalModules mod)).2 := by
    unfold tyGSOctalRebootHook
    rw [h3 mod, if_pos hm]
  rw [e1, e2]
  unfold rebootModule
  have hall : ∀ b v, Ev.wr_imr b v ∈
      ((List.range 8).foldl rebootPort (D.tyGSOctalModules mod, [])).2 → v = 0 :=
    fun b v hv => ((f5 b v).1 hv).1
  have hmem : Ev.wr_imr (port / 2) 0 ∈
      ((List.range 8).foldl rebootPort (D.tyGSOctalModules mod, [])).2 :=
    (f5 (port / 2) 0).2 ⟨rfl, port, hp, hc, rfl⟩
  refine ⟨f3 port hp hc, hall, hmem, ?_⟩
  unfold hwImr
  exact foldl_imrWrite_zero (port / 2) _ _ (fun v hv => hall _ v hv) (Or.inr ⟨0, hmem⟩)

/-- C6 at a concrete input: module 0 of `drvTwoPorts` with its created port 5,
all hardware mask registers holding `0xff` before. -/
theorem tyGSOctalRebootHook_quiesces_witness :
    (((tyGSOctalRebootHook drvTwoPorts).1.tyGSOctalModules 0).dev 5).irqEnable = 0 ∧
    (∀ b v, Ev.wr_imr b v ∈ moduleEvents 0 (tyGSOctalRebootHook drvTwoPorts).2 → v = 0) ∧
    Ev.wr_imr (5 / 2) 0 ∈ moduleEvents 0 (tyGSOctalRebootHook drvTwoPorts).2 ∧
    hwImr (fun _ => 0xff) (moduleEvents 0 (tyGSOctalRebootHook drvTwoPorts).2) (5 / 2) = 0 :=
  tyGSOctalRebootHook_quiesces drvTwoPorts (fun _ => 0xff) 0 5 (by decide) (by decide) (by decide)

/-! ### Shadow mask and hardware mask -/

theorem intService_block (hw : HwIn) (st : IntState) (port q : Nat) :
    ((intService hw st port).qt.dev q).block = (st.qt.dev q).block := by
  by_cases h : q = port
  · subst h
    unfold intService
    cases hw.tyITx q <;>
      (simp only []; split_ifs <;> simp [QUAD_TABLE.setDev, QUAD_TABLE.setImr, Function.update])
  · rw [intService_dev_ne hw st port q h]

/-- A visit of a port whose `block` is `port / 2` keeps the hardware mask
register of every block equal to the shadow mask. -/
theorem intService_sync (hw : HwIn) (st : IntState) (port : Nat)
    (hblk : (st.qt.dev port).block = port / 2) (h : Nat → Nat) (b : Nat)
    (hsync : hwImr h st.trace b = st.qt.imr b) :
    hwImr h (intService hw st port).trace b = (intService hw st port).qt.imr b := by
  unfold hwImr at hsync ⊢
  unfold intService
  cases hw.tyITx port <;>
    (simp only []; split_ifs <;>
      (simp only [List.foldl_append, List.foldl_cons, List.foldl_nil, imrWrite, hsync,
        QUAD_TABLE.setDev, QUAD_TABLE.setImr, hblk, Function.update_apply] <;>
       (try split_ifs) <;> first | rfl | (exfalso; omega)))

/-- A run of the dispatcher keeps every `block` field. -/
theorem tyGSOctalInt_block (hw : HwIn) (qt : QUAD_TABLE) (q : Nat) :
    ((tyGSOctalInt hw qt).qt.dev q).block = (qt.dev q).block := by
  have key := intLoop_inv hw
    (fun st => ∀ q, (st.qt.dev q).block = (qt.dev q).block)
    (by
      intro st port _ h _ q
      rw [intService_block, h])
    (by
      intro st port h q
      exact h q)
    8 1 { qt := { qt with interruptCount := (qt.interruptCount + 1) % ULONG_MOD },
          trace := [], flush := none }
    (fun _ => rfl)
  exact key q

/-- A run of the dispatcher on a module whose created ports have
`block = port / 2` keeps the hardware mask register of every block equal to
the shadow mask. -/
theorem tyGSOctalInt_sync (hw : HwIn) (qt : QUAD_TABLE) (h : Nat → Nat) (b : Nat)
    (hwf : ∀ p, p < 8 → (qt.dev p).created ≠ 0 → (qt.dev p).block = p / 2)
    (hsync : h b = qt.imr b) :
    hwImr h (tyGSOctalInt hw qt).trace b = (tyGSOctalInt hw qt).qt.imr b := by
  have key := intLoop_inv hw
    (fun st => (∀ q, (st.qt.dev q).created = (qt.dev q).created) ∧
      (∀ q, (st.qt.dev q).block = (qt.dev q).block) ∧
      hwImr h st.trace b = st.qt.imr b)
    (by
      intro st port hp ⟨h1, h2, h3⟩ hc
      refine ⟨fun q => by rw [intService_created, h1], fun q => by rw [intService_block, h2], ?_⟩
      apply intService_sync hw st port _ h b h3
      rw [h2]
      exact hwf port hp (by rw [← h1]; exact hc))
    (by
      intro st port ⟨h1, h2, h3⟩
      exact ⟨h1, h2, h3⟩)
    8 1 { qt := { qt with interruptCount := (qt.interruptCount + 1) % ULONG_MOD },
          trace := [], flush := none }
    ⟨fun _ => rfl, fun _ => rfl, hsync⟩
  obtain ⟨_, _, h3⟩ := key
  simp only [tyGSOctalInt]
  rw [← h3]
  unfold hwImr
  rw [List.foldl_append]
  split <;> rfl

theorem tyGSOctalInitChannel_sync (K : Consts) (qt : QUAD_TABLE) (port : Nat) (h : Nat → Nat)
    (b : Nat) (hsync : h b = qt.imr b) :
    hwImr h (tyGSOctalInitChannel K qt port).2 b = (tyGSOctalInitChannel K qt port).1.imr b := by
  have h9600 : baudCsr 9600 = some 0xbb := by decide
  unfold hwImr
  simp only [tyGSOctalInitChannel, tyGSOctalBaudSet, h9600, tyGSOctalOptsSet, tyGSOctalSetmr,
    QUAD_TABLE.setDev, QUAD_TABLE.setImr, List.foldl_append, List.foldl_cons, List.foldl_nil,
    imrWrite, Function.update_apply, hsync]
  split_ifs <;> first | rfl | (exfalso; omega)

theorem tyGSOctalStartup_sync (hw : HwIn) (qt : QUAD_TABLE) (port : Nat) (h : Nat → Nat)
    (b : Nat) (hblk : (qt.dev port).block = port / 2) (hsync : h b = qt.imr b) :
    hwImr h (tyGSOctalStartup hw qt port).2 b = (tyGSOctalStartup hw qt port).1.imr b := by
  unfold hwImr tyGSOctalStartup
  cases hw.tyITx port <;>
    (simp only [QUAD_TABLE.setImr, List.foldl_append, List.foldl_cons, List.foldl_nil,
      imrWrite, Function.update_apply, hsync, hblk, List.cons_append, List.nil_append];
     split_ifs <;> first | rfl | (exfalso; omega))

/-- The reboot hook and the masks of one module: the shadow is as before, the
hardware mask register of a block with a created port of a registered module
holds 0, and every other hardware mask register is as before. -/
theorem tyGSOctalRebootHook_masks (D : Driver) (h : Nat → Nat) (mod b : Nat) :
    ((tyGSOctalRebootHook D).1.tyGSOctalModules mod).imr b = (D.tyGSOctalModules mod).imr b ∧
    (mod < D.tyGSOctalLastModule →
      (∃ p, p < 8 ∧ ((D.tyGSOctalModules mod).dev p).created ≠ 0 ∧ p / 2 = b) →
      hwImr h (moduleEvents mod (tyGSOctalRebootHook D).2) b = 0) ∧
    ((¬ mod < D.tyGSOctalLastModule ∨
        ∀ p, p < 8 → ((D.tyGSOctalModules mod).dev p).created ≠ 0 → p / 2 ≠ b) →
      hwImr h (moduleEvents mod (tyGSOctalRebootHook D).2) b = h b) := by
  obtain ⟨_, h2, h3⟩ := rebootHook_spec D D.tyGSOctalLastModule
  obtain ⟨f1, _, _, _, f5⟩ := rebootFold_spec (D.tyGSOctalModules mod) 8
  have e1 : (tyGSOctalRebootHook D).1.tyGSOctalModules mod =
      if mod < D.tyGSOctalLastModule then (rebootModule (D.tyGSOctalModules mod)).1
      else D.tyGSOctalModules mod := h2 mod
  have e2 : moduleEvents mod (tyGSOctalRebootHook D).2 =
      if mod < D.tyGSOctalLastModule then (rebootModule (D.tyGSOctalModules mod)).2
      else [] := h3 mod
  refine ⟨?_, ?_, ?_⟩
  · rw [e1]
    split_ifs
    · unfold rebootModule
      rw [f1]
    · rfl
  · rintro hm ⟨p, hp, hc, rfl⟩
    rw [e2, if_pos hm]
    unfold hwImr rebootModule
    exact foldl_imrWrite_zero (p / 2) _ _ (fun v hv => ((f5 _ v).1 hv).1)
      (Or.inr ⟨0, (f5 (p / 2) 0).2 ⟨rfl, p, hp, hc, rfl⟩⟩)
  · intro hcase
    rw [e2]
    unfold hwImr
    split_ifs with hm
    · unfold rebootModule
      apply foldl_imrWrite_same
      intro v hv
      obtain ⟨_, p, hp, hc, hpb⟩ := (f5 b v).1 hv
      rcases hcase with hcase | hcase
      · exact hcase hm
      · exact hcase p hp hc hpb
    · rfl

/-- C7 (as amended): when the hardware interrupt mask register of a block holds
the value of the shadow `imr` of that block, the same is true after
`tyGSOctalInitChannel`, after `tyGSOctalInt` (on a module whose created ports
have `block = port / 2`, as `tyGSOctalInitChannel` sets it and `tyGSOctalInt`
keeps it) and after `tyGSOctalStartup` (for a port with `block = port / 2`).
`tyGSOctalRebootHook` leaves the shadow as it is and writes 0 to the hardware
mask register of every block that holds a created port of a registered module;
the other hardware mask registers are as before. -/
theorem imr_sync_preserved (K : Consts) (hw : HwIn) (qt : QUAD_TABLE) (h : Nat → Nat)
    (port b : Nat) (D : Driver) (mod : Nat) (hsync : h b = qt.imr b) :
    hwImr h (tyGSOctalInitChannel K qt port).2 b = (tyGSOctalInitChannel K qt port).1.imr b ∧
    ((∀ p, p < 8 → (qt.dev p).created ≠ 0 → (qt.dev p).block = p / 2) →
      hwImr h (tyGSOctalInt hw qt).trace b = (tyGSOctalInt hw qt).qt.imr b ∧
      (∀ p, p < 8 → ((tyGSOctalInt hw qt).qt.dev p).created ≠ 0 →
        ((tyGSOctalInt hw qt).qt.dev p).block = p / 2)) ∧
    ((qt.dev port).block = port / 2 →
      hwImr h (tyGSOctalStartup hw qt port).2 b = (tyGSOctalStartup hw qt port).1.imr b) ∧
    ((tyGSOctalRebootHook D).1.tyGSOctalModules mod).imr b = (D.tyGSOctalModules mod).imr b ∧
    (mod < D.tyGSOctalLastModule →
      (∃ p, p < 8 ∧ ((D.tyGSOctalModules mod).dev p).created ≠ 0 ∧ p / 2 = b) →
      hwImr h (moduleEvents mod (tyGSOctalRebootHook D).2) b = 0) ∧
    ((¬ mod < D.tyGSOctalLastModule ∨
        ∀ p, p < 8 → ((D.tyGSOctalModules mod).dev p).created ≠ 0 → p / 2 ≠ b) →
      hwImr h (moduleEvents mod (tyGSOctalRebootHook D).2) b = h b) := by
  obtain ⟨r1, r2, r3⟩ := tyGSOctalRebootHook_masks D h mod b
  exact ⟨tyGSOctalInitChannel_sync K qt port h b hsync,
    fun hwf => ⟨tyGSOctalInt_sync hw qt h b hwf hsync, fun p hp hc => by
      rw [tyGSOctalInt_block]
      rw [tyGSOctalInt_created] at hc
      exact hwf p hp hc⟩,
    fun hblk => tyGSOctalStartup_sync hw qt port h b hblk hsync, r1, r2, r3⟩

/-- C7 as amended, at a concrete input: block 2 of the module with ports 2 and
5 created, the hardware masks equal to the shadow before. -/
theorem imr_sync_preserved_witness :
    qtTwoPorts.imr 2 = qtTwoPorts.imr 2 ∧
    hwImr qtTwoPorts.imr (tyGSOctalInitChannel vxConsts qtTwoPorts 4).2 2 =
      (tyGSOctalInitChannel vxConsts qtTwoPorts 4).1.imr 2 ∧
    hwImr qtTwoPorts.imr (tyGSOctalInt hwBusy qtTwoPorts).trace 2 =
      (tyGSOctalInt hwBusy qtTwoPorts).qt.imr 2 ∧
    hwImr qtTwoPorts.imr (tyGSOctalStartup hwBusy qtTwoPorts 5).2 2 =
      (tyGSOctalStartup hwBusy qtTwoPorts 5).1.imr 2 ∧
    hwImr qtTwoPorts.imr (moduleEvents 0 (tyGSOctalRebootHook drvTwoPorts).2) 2 = 0 :=
  ⟨rfl,
   (imr_sync_preserved vxConsts hwBusy qtTwoPorts qtTwoPorts.imr 4 2 drvTwoPorts 0 rfl).1,
   ((imr_sync_preserved vxConsts hwBusy qtTwoPorts qtTwoPorts.imr 5 2 drvTwoPorts 0 rfl).2.1
     (by decide)).1,
   (imr_sync_preserved vxConsts hwBusy qtTwoPorts qtTwoPorts.imr 5 2 drvTwoPorts 0 rfl).2.2.1
     (by decide),
   (imr_sync_preserved vxConsts hwBusy qtTwoPorts qtTwoPorts.imr 5 2 drvTwoPorts 0 rfl).2.2.2.2.1
     (by decide) ⟨5, by decide, by decide, by decide⟩⟩

/-- C7 (counterexample): the module with ports 2 and 5 created has the shadow
masks `imr[1] = 0x02` and `imr[2] = 0x20`.  With the hardware mask registers
equal to the shadow, `tyGSOctalRebootHook` leaves `0` in the hardware mask
register of block 1 while the shadow `imr[1]` is still `0x02`. -/
theorem tyGSOctalRebootHook_breaks_sync :
    (∀ b, qtTwoPorts.imr b = (drvTwoPorts.tyGSOctalModules 0).imr b) ∧
    hwImr qtTwoPorts.imr (moduleEvents 0 (tyGSOctalRebootHook drvTwoPorts).2) 1 = 0 ∧
    ((tyGSOctalRebootHook drvTwoPorts).1.tyGSOctalModules 0).imr 1 = 0x02 ∧
    hwImr qtTwoPorts.imr (moduleEvents 0 (tyGSOctalRebootHook drvTwoPorts).2) 1 ≠
      ((tyGSOctalRebootHook drvTwoPorts).1.tyGSOctalModules 0).imr 1 := by
  refine ⟨fun b => rfl, by decide, by decide, by decide⟩

/-! ### Default configuration -/

theorem or_and_distrib (a b c : Nat) : (a ||| b) &&& c = (a &&& c) ||| (b &&& c) := by
  apply Nat.eq_of_testBit_eq
  intro i
  simp [Bool.and_or_distrib_right]

theorem or_ne_zero_right (a b : Nat) (h : b ≠ 0) : a ||| b ≠ 0 := by
  intro h0
  apply h
  apply Nat.zero_of_testBit_eq_false
  intro i
  have := congrArg (fun x => Nat.testBit x i) h0
  simp only [Nat.testBit_or, Nat.zero_testBit, Bool.or_eq_false_iff] at this
  exact this.2

/-- The option word `CS8 | CLOCAL` read back through the option masks. -/
theorem default_opts (K : Consts) (hK : K.OptsWf) :
    (K.CS8 ||| K.CLOCAL) &&& K.CSIZE = K.CS8 ∧
    (K.CS8 ||| K.CLOCAL) &&& K.STOPB = 0 ∧
    (K.CS8 ||| K.CLOCAL) &&& K.PARENB = 0 ∧
    (K.CS8 ||| K.CLOCAL) &&& K.PARODD = 0 ∧
    (K.CS8 ||| K.CLOCAL) &&& K.CLOCAL ≠ 0 ∧
    (K.CS8 ||| K.CLOCAL) &&& (K.CSIZE ||| K.STOPB ||| K.PARENB ||| K.PARODD ||| K.CLOCAL) =
      K.CS8 ||| K.CLOCAL := by
  obtain ⟨_, _, _, h8, hl, hlc, h8s, hls, h8p, hlp, h8o, hlo⟩ := hK
  refine ⟨?_, ?_, ?_, ?_, ?_, ?_⟩
  · rw [or_and_distrib, h8, hlc, Nat.or_zero]
  · rw [or_and_distrib, h8s, hls]; rfl
  · rw [or_and_distrib, h8p, hlp]; rfl
  · rw [or_and_distrib, h8o, hlo]; rfl
  · rw [or_and_distrib, Nat.and_self]
    exact or_ne_zero_right _ _ hl
  · apply Nat.eq_of_testBit_eq
    intro i
    have h8i := congrArg (fun x => Nat.testBit x i) h8
    simp only [Nat.testBit_and] at h8i
    simp only [Nat.testBit_and, Nat.testBit_or]
    revert h8i
    cases K.CS8.testBit i <;> cases K.CSIZE.testBit i <;> cases K.CLOCAL.testBit i <;> simp

/-- The mode bytes for the option word `CS8 | CLOCAL`. -/
theorem default_mode_bytes (K : Consts) (hK : K.OptsWf) :
    optsMr1 K (K.CS8 ||| K.CLOCAL) = 0x13 ∧ optsMr2 K (K.CS8 ||| K.CLOCAL) = 0x07 := by
  obtain ⟨d1, d2, d3, d4, d5, _⟩ := default_opts K hK
  obtain ⟨h5, h6, h7, _⟩ := hK
  constructor
  · simp [optsMr1, d1, d3, d4, d5, Ne.symm h5, Ne.symm h6, Ne.symm h7]
  · simp [optsMr2, d2, d5]

/-- Channel bring-up touches the device structure of its port only. -/
theorem tyGSOctalInitChannel_dev_ne (K : Consts) (qt : QUAD_TABLE) (port q : Nat)
    (h : q ≠ port) : (tyGSOctalInitChannel K qt port).1.dev q = qt.dev q := by
  have h9600 : baudCsr 9600 = some 0xbb := by decide
  simp [tyGSOctalInitChannel, tyGSOctalBaudSet, h9600, tyGSOctalOptsSet, tyGSOctalSetmr,
    QUAD_TABLE.setDev, QUAD_TABLE.setImr, Function.update, h]

/-- Channel bring-up sets `block = port / 2` and leaves `created` alone. -/
theorem tyGSOctalInitChannel_block (K : Consts) (qt : QUAD_TABLE) (port : Nat) :
    ((tyGSOctalInitChannel K qt port).1.dev port).block = port / 2 ∧
    ((tyGSOctalInitChannel K qt port).1.dev port).created = (qt.dev port).created := by
  have h9600 : baudCsr 9600 = some 0xbb := by decide
  simp [tyGSOctalInitChannel, tyGSOctalBaudSet, h9600, tyGSOctalOptsSet, tyGSOctalSetmr,
    QUAD_TABLE.setDev, QUAD_TABLE.setImr]

/-- C8: for every module variant (any `modelID`), every port and every prior
state, after `tyGSOctalInitChannel` the configuration read back through
`SIO_BAUD_GET` and `SIO_HW_OPTS_GET` is the default, baud 9600 and options
`CS8 | CLOCAL` (word size `CS8`, `PARENB` clear, `STOPB` clear, `CLOCAL` set),
and the registers are programmed with divisor selector `0xbb`, mode byte 1
`0x13` and mode byte 2 `0x07`; the events of the routine are listed in full. -/
theorem tyGSOctalInitChannel_default_config (K : Consts) (hK : K.OptsWf) (tyIoctl : STATUS)
    (qt : QUAD_TABLE) (port : Nat) (arg : Int) :
    ((tyGSOctalInitChannel K qt port).1.dev port).baud = 9600 ∧
    ((tyGSOctalInitChannel K qt port).1.dev port).opts = K.CS8 ||| K.CLOCAL ∧
    (tyGSOctalIoctl K tyIoctl (tyGSOctalInitChannel K qt port).1 port
      Request.SIO_BAUD_GET arg).out = some 9600 ∧
    (tyGSOctalIoctl K tyIoctl (tyGSOctalInitChannel K qt port).1 port
      Request.SIO_HW_OPTS_GET arg).out = some ((K.CS8 ||| K.CLOCAL : Nat) : Int) ∧
    ((K.CS8 ||| K.CLOCAL) &&& K.CSIZE = K.CS8 ∧ (K.CS8 ||| K.CLOCAL) &&& K.PARENB = 0 ∧
      (K.CS8 ||| K.CLOCAL) &&& K.STOPB = 0 ∧ (K.CS8 ||| K.CLOCAL) &&& K.CLOCAL ≠ 0) ∧
    (tyGSOctalInitChannel K qt port).2 =
      [Ev.intLock, Ev.wr_acr (port / 2) 0x80, Ev.wr_cr port 0x1a, Ev.wr_cr port 0x20,
       Ev.wr_cr port 0x30, Ev.wr_cr port 0x40, Ev.wr_csr port 0xbb,
       Ev.wr_opcr (port / 2) 0x80, Ev.wr_cr port 0x10, Ev.wr_mr port 0x13, Ev.wr_mr port 0x07,
       Ev.wr_imr (port / 2) ((tyGSOctalInitChannel K qt port).1.imr (port / 2)),
       Ev.wr_cr port 0x05, Ev.intUnlock] := by
  have h9600 : baudCsr 9600 = some 0xbb := by decide
  obtain ⟨d1, d2, d3, d4, d5, d6⟩ := default_opts K hK
  obtain ⟨m1, m2⟩ := default_mode_bytes K hK
  have hbaud : ((tyGSOctalInitChannel K qt port).1.dev port).baud = 9600 := by
    simp [tyGSOctalInitChannel, tyGSOctalBaudSet, h9600, tyGSOctalOptsSet, tyGSOctalSetmr,
      QUAD_TABLE.setDev, QUAD_TABLE.setImr]
  have hopts : ((tyGSOctalInitChannel K qt port).1.dev port).opts = K.CS8 ||| K.CLOCAL := by
    simp only [tyGSOctalInitChannel, tyGSOctalBaudSet, h9600, tyGSOctalOptsSet, tyGSOctalSetmr,
      QUAD_TABLE.setDev, QUAD_TABLE.setImr, Function.update_same, d6]
  refine ⟨hbaud, hopts, ?_, ?_, ⟨d1, d3, d2, d5⟩, ?_⟩
  · simp only [tyGSOctalIoctl, hbaud]
  · simp only [tyGSOctalIoctl, hopts]
  · have e1 : (0x13 &&& 0x7f : Nat) = 0x13 := by decide
    have e2 : (0x07 &&& 0xcf : Nat) = 0x07 := by decide
    have e3 : (0x13 &&& 0x80 : Nat) = 0 := by decide
    simp only [tyGSOctalInitChannel, tyGSOctalBaudSet, h9600, tyGSOctalOptsSet, tyGSOctalSetmr,
      QUAD_TABLE.setDev, QUAD_TABLE.setImr, m1, m2, Function.update_same, e1, e2, e3, ite_self,
      ne_eq, not_true_eq_false, if_false, List.append_nil, List.cons_append, List.nil_append]

/-- C8 at the VxWorks constants: port 3 of a zeroed module. -/
theorem tyGSOctalInitChannel_default_config_witness :
    vxConsts.OptsWf ∧
    ((tyGSOctalInitChannel vxConsts qt0 3).1.dev 3).baud = 9600 ∧
    ((tyGSOctalInitChannel vxConsts qt0 3).1.dev 3).opts = 0xc ||| 0x1 :=
  ⟨by decide,
   (tyGSOctalInitChannel_default_config vxConsts (by decide) STATUS.OK qt0 3 0).1,
   (tyGSOctalInitChannel_default_config vxConsts (by decide) STATUS.OK qt0 3 0).2.1⟩

/-! ### Legacy configuration call -/

/-- What `tyGSOctalConfig` does for an existing device and an unsupported rate,
in general: it returns `OK`, leaves `baud` as it was and stores the options
built from its arguments. -/
theorem tyGSOctalConfig_bad_baud (K : Consts) (qt : QUAD_TABLE) (port : Nat) (baud : Int)
    (parity : Char) (stop bits : Int) (flow : Char) (hbaud : baudCsr baud = none) :
    (tyGSOctalConfig K qt (some port) baud parity stop bits flow).2.2 = STATUS.OK ∧
    ((tyGSOctalConfig K qt (some port) baud parity stop bits flow).1.dev port).baud =
      (qt.dev port).baud ∧
    ((tyGSOctalConfig K qt (some port) baud parity stop bits flow).1.dev port).opts =
      configOpts K parity stop bits flow &&&
        (K.CSIZE ||| K.STOPB ||| K.PARENB ||| K.PARODD ||| K.CLOCAL) := by
  simp [tyGSOctalConfig, tyGSOctalBaudSet, hbaud, tyGSOctalOptsSet, tyGSOctalSetmr,
    QUAD_TABLE.setDev]

/-- C9 (the code at the failing input): port 5 of `qtTwoPorts` is configured
with baud 9600 and options `CS8 | CLOCAL = 0x0d`.  For the unsupported rate
57600 `tyGSOctalBaudSet` and the `SIO_BAUD_SET` request return `ERROR`, but
`tyGSOctalConfig(name, 57600, 'E', 2, 7, 'H')` returns `OK`, and although
`baud` is still 9600 the options are now `CS7 | STOPB | PARENB = 0x68` and the
mode bytes `0x82`, `0x1f` have been written. -/
theorem tyGSOctalConfig_bad_baud_returns_ok :
    (qtTwoPorts.dev 5).baud = 9600 ∧ (qtTwoPorts.dev 5).opts = 0x0d ∧
    (tyGSOctalBaudSet qtTwoPorts 5 57600).2.2 = STATUS.ERROR ∧
    (tyGSOctalIoctl vxConsts STATUS.OK qtTwoPorts 5 Request.SIO_BAUD_SET 57600).status =
      STATUS.ERROR ∧
    (tyGSOctalConfig vxConsts qtTwoPorts (some 5) 57600 'E' 2 7 'H').2.2 = STATUS.OK ∧
    ((tyGSOctalConfig vxConsts qtTwoPorts (some 5) 57600 'E' 2 7 'H').1.dev 5).baud = 9600 ∧
    ((tyGSOctalConfig vxConsts qtTwoPorts (some 5) 57600 'E' 2 7 'H').1.dev 5).opts = 0x68 ∧
    (tyGSOctalConfig vxConsts qtTwoPorts (some 5) 57600 'E' 2 7 'H').2.1 =
      [Ev.intLock, Ev.wr_opcr 2 0x80, Ev.wr_cr 5 0x10, Ev.wr_mr 5 0x82, Ev.wr_mr 5 0x1f,
       Ev.wr_cr 5 0x80, Ev.errnoSet Errno.EINVAL, Ev.intUnlock] := by
  refine ⟨by decide, by decide, by decide, by decide, by decide, by decide, by decide, by decide⟩

/-! ### Device creation -/

/-- C10: `tyGSOctalDevCreate` returns `NULL` when `port < 0` or `port > 7`, and
when the port of the module found already has `created` set; in both cases
there is no event at all (no register is written) and the driver state, so
every field of every channel and module, is as before.  For a port 0..7 that is
not created, `tyDevInit` and `iosDevAdd` succeeding, it returns the name,
`created` of that port is set, `created` of every other port of the module is
as before, and every other module is as before. -/
theorem tyGSOctalDevCreate_contract (K : Consts) (env : CreateEnv) (D : Driver)
    (name moduleID : Option String) (port rdBufSize wrtBufSize : Int) :
    ((port < 0 ∨ port > 7) →
      tyGSOctalDevCreate K env D name moduleID port rdBufSize wrtBufSize = (D, [], none)) ∧
    (∀ mod, tyGSOctalFindQT D moduleID = some mod →
      ((D.tyGSOctalModules mod).dev port.toNat).created ≠ 0 →
      tyGSOctalDevCreate K env D name moduleID port rdBufSize wrtBufSize = (D, [], none)) ∧
    (∀ mod n, name = some n → tyGSOctalFindQT D moduleID = some mod → 0 ≤ port → port ≤ 7 →
      ((D.tyGSOctalModules mod).dev port.toNat).created = 0 →
      env.tyDevInit = STATUS.OK → env.iosDevAdd = STATUS.OK →
      (tyGSOctalDevCreate K env D name moduleID port rdBufSize wrtBufSize).2.2 = some n ∧
      (((tyGSOctalDevCreate K env D name moduleID port rdBufSize wrtBufSize).1.tyGSOctalModules
        mod).dev port.toNat).created = 1 ∧
      (∀ q, q ≠ port.toNat →
        (((tyGSOctalDevCreate K env D name moduleID port rdBufSize wrtBufSize).1.tyGSOctalModules
          mod).dev q).created = ((D.tyGSOctalModules mod).dev q).created) ∧
      (∀ m, m ≠ mod →
        (tyGSOctalDevCreate K env D name moduleID port rdBufSize wrtBufSize).1.tyGSOctalModules m =
          D.tyGSOctalModules m)) := by
  refine ⟨?_, ?_, ?_⟩
  · intro hp
    unfold tyGSOctalDevCreate
    split
    · simp [hp]
    · rfl
  · intro mod hf hc
    cases name with
    | none => simp [tyGSOctalDevCreate]
    | some n => simp [tyGSOctalDevCreate, hf, hc]
  · intro mod n hn hf h0 h7 hc hti hio
    have hport : ¬ (port < 0 ∨ port > 7) := by omega
    subst hn
    simp only [tyGSOctalDevCreate, hf, hport, if_false, hc, ne_eq, not_true_eq_false, hti, hio]
    refine ⟨trivial, ?_, ?_, ?_⟩
    · simp [Driver.setModule, QUAD_TABLE.setDev]
    · intro q hq
      simp only [Driver.setModule, QUAD_TABLE.setDev, Function.update_same]
      rw [Function.update_noteq hq, tyGSOctalInitChannel_dev_ne K _ _ q hq]
    · intro m hm
      simp [Driver.setModule, Function.update_noteq hm]

/-- C10 at concrete inputs on `drvOneModule`: port 8 and port -1 are refused,
port 3 is created. -/
theorem tyGSOctalDevCreate_contract_witness :
    tyGSOctalDevCreate vxConsts createEnvOk drvOneModule (some "/SBS/0,1/8") (some "232-1")
      8 512 512 = (drvOneModule, [], none) ∧
    tyGSOctalDevCreate vxConsts createEnvOk drvOneModule (some "/SBS/0,1/8") (some "232-1")
      (-1) 512 512 = (drvOneModule, [], none) ∧
    (tyGSOctalDevCreate vxConsts createEnvOk drvOneModule (some "/SBS/0,1/3") (some "232-1")
      3 512 512).2.2 = some "/SBS/0,1/3" ∧
    (((tyGSOctalDevCreate vxConsts createEnvOk drvOneModule (some "/SBS/0,1/3") (some "232-1")
      3 512 512).1.tyGSOctalModules 0).dev 3).created = 1 :=
  ⟨(tyGSOctalDevCreate_contract vxConsts createEnvOk drvOneModule (some "/SBS/0,1/8")
      (some "232-1") 8 512 512).1 (by decide),
   (tyGSOctalDevCreate_contract vxConsts createEnvOk drvOneModule (some "/SBS/0,1/8")
      (some "232-1") (-1) 512 512).1 (by decide),
   ((tyGSOctalDevCreate_contract vxConsts createEnvOk drvOneModule (some "/SBS/0,1/3")
      (some "232-1") 3 512 512).2.2 0 "/SBS/0,1/3" rfl (by decide) (by decide) (by decide)
      (by decide) rfl rfl).1,
   ((tyGSOctalDevCreate_contract vxConsts createEnvOk drvOneModule (some "/SBS/0,1/3")
      (some "232-1") 3 512 512).2.2 0 "/SBS/0,1/3" rfl (by decide) (by decide) (by decide)
      (by decide) rfl rfl).2.1⟩

/-! ### Half-duplex write wrapper -/

/-- The wait loop, described: either all `n` reads allowed found the
transmit-empty bit clear, or the loop was left at the first read that found it
set. -/
theorem waitTxEmt_spec (env : WriteEnv) (port : Nat) : ∀ n k,
    ((waitTxEmt env port n k).2 = false ∧
      (waitTxEmt env port n k).1 = List.replicate n (Ev.rd_sr port) ∧
      ∀ j, k ≤ j → j < k + n → (env.sr j % 256) &&& 0x08 = 0) ∨
    (∃ m, m < n ∧ (∀ j, k ≤ j → j < k + m → (env.sr j % 256) &&& 0x08 = 0) ∧
      (env.sr (k + m) % 256) &&& 0x08 ≠ 0 ∧
      (waitTxEmt env port n k).2 = true ∧
      (waitTxEmt env port n k).1 = List.replicate (m + 1) (Ev.rd_sr port)) := by
  intro n
  induction n with
  | zero =>
      intro k
      left
      refine ⟨rfl, rfl, ?_⟩
      intro j h1 h2
      omega
  | succ n ih =>
      intro k
      by_cases hb : (env.sr k % 256) &&& 0x08 ≠ 0
      · right
        refine ⟨0, by omega, ?_, by simpa using hb, ?_, ?_⟩
        · intro j h1 h2
          omega
        · simp [waitTxEmt, hb]
        · simp [waitTxEmt, hb]
      · have hb0 : (env.sr k % 256) &&& 0x08 = 0 := by simpa using hb
        rcases ih (k + 1) with ⟨h1, h2, h3⟩ | ⟨m, hm, h1, h2, h3, h4⟩
        · left
          refine ⟨by simp [waitTxEmt, hb, h1], by simp [waitTxEmt, hb, h2, List.replicate_succ], ?_⟩
          intro j hj1 hj2
          rcases Nat.eq_or_lt_of_le hj1 with rfl | hlt
          · exact hb0
          · exact h3 j hlt (by omega)
        · right
          refine ⟨m + 1, by omega, ?_, ?_, by simp [waitTxEmt, hb, h3],
            by simp [waitTxEmt, hb, h4, List.replicate_succ]⟩
          · intro j hj1 hj2
            rcases Nat.eq_or_lt_of_le hj1 with rfl | hlt
            · exact hb0
            · exact h1 j hlt (by omega)
          · have : k + (m + 1) = k + 1 + m := by omega
            rw [this]
            exact h2

/-- C11: for a channel that is not half-duplex `tyGSOctalWrite` only calls
`tyWrite`, accesses no register, and returns the count of `tyWrite`.  For a
half-duplex channel (`mode = RS485`) it writes the command `0x82`, calls
`tyWrite`, and then only reads the status register: whatever the number of
reads, no command is written while no read has found the transmit-empty bit
`0x08` set, and at the first read that finds it set the loop ends, the command
`0x91` is written and the count of `tyWrite` is returned.  So when read number
`m` is the first to find the bit set, the routine returns with
`0x82`, `tyWrite`, `m + 1` status reads, `0x91`. -/
theorem tyGSOctalWrite_direction_control (env : WriteEnv) (qt : QUAD_TABLE) (port : Nat) :
    ((qt.dev port).mode ≠ RSmode.RS485 → ∀ fuel,
      (tyGSOctalWrite env fuel qt port).trace = [Ev.tyWrite port] ∧
      (tyGSOctalWrite env fuel qt port).result = some env.tyWrite) ∧
    ((qt.dev port).mode = RSmode.RS485 → ∀ fuel,
      ((tyGSOctalWrite env fuel qt port).result = none ∧
        (tyGSOctalWrite env fuel qt port).trace =
          [Ev.wr_cr port 0x82, Ev.tyWrite port] ++ List.replicate fuel (Ev.rd_sr port) ∧
        ∀ j, j < fuel → (env.sr j % 256) &&& 0x08 = 0) ∨
      (∃ m, m < fuel ∧ (∀ j, j < m → (env.sr j % 256) &&& 0x08 = 0) ∧
        (env.sr m % 256) &&& 0x08 ≠ 0 ∧
        (tyGSOctalWrite env fuel qt port).result = some env.tyWrite ∧
        (tyGSOctalWrite env fuel qt port).trace =
          [Ev.wr_cr port 0x82, Ev.tyWrite port] ++ List.replicate (m + 1) (Ev.rd_sr port) ++
            [Ev.wr_cr port 0x91])) ∧
    ((qt.dev port).mode = RSmode.RS485 → ∀ m, (∀ j, j < m → (env.sr j % 256) &&& 0x08 = 0) →
      (env.sr m % 256) &&& 0x08 ≠ 0 → ∀ fuel, m < fuel →
      (tyGSOctalWrite env fuel qt port).result = some env.tyWrite ∧
      (tyGSOctalWrite env fuel qt port).trace =
        [Ev.wr_cr port 0x82, Ev.tyWrite port] ++ List.replicate (m + 1) (Ev.rd_sr port) ++
          [Ev.wr_cr port 0x91]) := by
  have h485 : (qt.dev port).mode = RSmode.RS485 → ∀ fuel,
      ((tyGSOctalWrite env fuel qt port).result = none ∧
        (tyGSOctalWrite env fuel qt port).trace =
          [Ev.wr_cr port 0x82, Ev.tyWrite port] ++ List.replicate fuel (Ev.rd_sr port) ∧
        ∀ j, j < fuel → (env.sr j % 256) &&& 0x08 = 0) ∨
      (∃ m, m < fuel ∧ (∀ j, j < m → (env.sr j % 256) &&& 0x08 = 0) ∧
        (env.sr m % 256) &&& 0x08 ≠ 0 ∧
        (tyGSOctalWrite env fuel qt port).result = some env.tyWrite ∧
        (tyGSOctalWrite env fuel qt port).trace =
          [Ev.wr_cr port 0x82, Ev.tyWrite port] ++ List.replicate (m + 1) (Ev.rd_sr port) ++
            [Ev.wr_cr port 0x91]) := by
    intro hmode fuel
    rcases waitTxEmt_spec env port fuel 0 with ⟨h1, h2, h3⟩ | ⟨m, hm, h1, h2, h3, h4⟩
    · left
      refine ⟨by simp [tyGSOctalWrite, hmode, h1], by simp [tyGSOctalWrite, hmode, h1, h2], ?_⟩
      intro j hj
      exact h3 j (Nat.zero_le _) (by omega)
    · right
      refine ⟨m, hm, fun j hj => h1 j (Nat.zero_le _) (by omega), by simpa using h2,
        by simp [tyGSOctalWrite, hmode, h3], by simp [tyGSOctalWrite, hmode, h3, h4]⟩
  refine ⟨?_, h485, ?_⟩
  · intro hmode fuel
    simp [tyGSOctalWrite, hmode]
  · intro hmode m hclear hset fuel hfuel
    rcases h485 hmode fuel with ⟨_, _, h3⟩ | ⟨m2, _, h1, h2, h3, h4⟩
    · exact absurd (h3 m hfuel) hset
    · have hm : m2 = m := by
        rcases Nat.lt_trichotomy m2 m with hlt | heq | hgt
        · exact absurd (hclear m2 hlt) h2
        · exact heq
        · exact absurd (h1 m hgt) hset
      subst hm
      exact ⟨h3, h4⟩

/-- C11 at concrete inputs: a half-duplex port whose transmitter reports empty
at the third status read, and a port that is not half-duplex. -/
theorem tyGSOctalWrite_direction_control_witness :
    ((qtTwoPorts.dev 5).mode ≠ RSmode.RS485 ∧
      (tyGSOctalWrite writeEnv3 7 qtTwoPorts 5).trace = [Ev.tyWrite 5] ∧
      (tyGSOctalWrite writeEnv3 7 qtTwoPorts 5).result = some 10) ∧
    ((qt485.dev 3).mode = RSmode.RS485 ∧
      (tyGSOctalWrite writeEnv3 7 qt485 3).result = some 10 ∧
      (tyGSOctalWrite writeEnv3 7 qt485 3).trace =
        [Ev.wr_cr 3 0x82, Ev.tyWrite 3] ++ List.replicate (2 + 1) (Ev.rd_sr 3) ++
          [Ev.wr_cr 3 0x91]) :=
  ⟨⟨by decide,
    (tyGSOctalWrite_direction_control writeEnv3 qtTwoPorts 5).1 (by decide) 7⟩,
   ⟨by decide,
    (tyGSOctalWrite_direction_control writeEnv3 qt485 3).2.2 (by decide) 2
      (by decide) (by decide) 7 (by decide)⟩⟩

/-! ### Mode registers -/

/-- The mode bytes `tyGSOctalOptsSet` computes are those of the specification. -/
theorem optsMr_eq_spec (K : Consts) (opts : Nat) :
    optsMr1 K opts = specMr1 K opts true ∧ optsMr2 K opts = specMr2 K opts true ∧
    optsMr1 K opts &&& 0x7f = specMr1 K opts false ∧
    optsMr2 K opts &&& 0xcf = specMr2 K opts false ∧
    (optsMr1 K opts &&& 0x80 ≠ 0 ↔ opts &&& K.CLOCAL = 0) ∧
    specMr1 K opts false &&& 0x80 = 0 ∧ specMr2 K opts false &&& 0x30 = 0 := by
  unfold optsMr1 optsMr2 specMr1 specMr2 wordLenCode
  simp only [true_and, Bool.false_eq_true, false_and, if_false]
  refine ⟨?_, ?_, ?_, ?_, ?_, ?_, ?_⟩
  · split_ifs <;> decide
  · split_ifs <;> decide
  · split_ifs <;> decide
  · split_ifs <;> decide
  · by_cases hc : opts &&& K.CLOCAL = 0
    · simp only [hc, if_true, iff_true]
      split_ifs <;> decide
    · simp only [hc, if_false, iff_false, not_not]
      split_ifs <;> decide
  · split_ifs <;> decide
  · split_ifs <;> decide

/-- The events of `tyGSOctalOptsSet` and the mode it leaves, for the 485
variant and for the other variants. -/
theorem tyGSOctalOptsSet_events (K : Consts) (qt : QUAD_TABLE) (port opts : Nat) :
    (qt.modelID = K.GSIP_OCTAL485 →
      (tyGSOctalOptsSet K qt port opts).2 =
        [Ev.wr_opcr (port / 2) 0x80, Ev.wr_cr port 0x10,
         Ev.wr_mr port (specMr1 K opts false), Ev.wr_mr port (specMr2 K opts false)] ∧
      ((tyGSOctalOptsSet K qt port opts).1.dev port).mode = RSmode.RS485) ∧
    (qt.modelID ≠ K.GSIP_OCTAL485 →
      (tyGSOctalOptsSet K qt port opts).2 =
        [Ev.wr_opcr (port / 2) 0x80, Ev.wr_cr port 0x10,
         Ev.wr_mr port (specMr1 K opts true), Ev.wr_mr port (specMr2 K opts true)] ++
          (if opts &&& K.CLOCAL = 0 then [Ev.wr_cr port 0x80] else []) ∧
      ((tyGSOctalOptsSet K qt port opts).1.dev port).mode = RSmode.RS232) := by
  obtain ⟨e1, e2, e3, e4, e5, e6, _⟩ := optsMr_eq_spec K opts
  constructor
  · intro h
    have h0 : ¬ (specMr1 K opts false &&& 0x80 ≠ 0) := by rw [e6]; simp
    simp only [tyGSOctalOptsSet, tyGSOctalSetmr, h, decide_True, if_true, e3, e4, if_neg h0,
      List.append_nil, QUAD_TABLE.setDev, Function.update_same, and_self]
  · intro h
    by_cases hc : opts &&& K.CLOCAL = 0
    · have h1 : optsMr1 K opts &&& 0x80 ≠ 0 := e5.2 hc
      simp only [tyGSOctalOptsSet, tyGSOctalSetmr, h, decide_False, if_pos h1, if_pos hc,
        ← e1, ← e2, QUAD_TABLE.setDev, Function.update_same]
      simpa using h1
    · have h1 : ¬ (optsMr1 K opts &&& 0x80 ≠ 0) := fun h2 => hc (e5.1 h2)
      simp only [tyGSOctalOptsSet, tyGSOctalSetmr, h, decide_False, if_neg h1, if_neg hc,
        ← e1, ← e2, QUAD_TABLE.setDev, Function.update_same]
      simpa using h1

/-- C12: `tyGSOctalOptsSet` is idempotent.  For every module state, module
variant (`modelID`), port and options value, a second application of the same
options right after the first leaves the persisted `opts` and `mode` of the
first (the whole module is as after the first), and both applications make the
same register writes, among them the same two mode bytes. -/
theorem tyGSOctalOptsSet_idempotent (K : Consts) (qt : QUAD_TABLE) (port opts : Nat) :
    ((tyGSOctalOptsSet K (tyGSOctalOptsSet K qt port opts).1 port opts).1.dev port).opts =
      ((tyGSOctalOptsSet K qt port opts).1.dev port).opts ∧
    ((tyGSOctalOptsSet K (tyGSOctalOptsSet K qt port opts).1 port opts).1.dev port).mode =
      ((tyGSOctalOptsSet K qt port opts).1.dev port).mode ∧
    (tyGSOctalOptsSet K (tyGSOctalOptsSet K qt port opts).1 port opts).1 =
      (tyGSOctalOptsSet K qt port opts).1 ∧
    (tyGSOctalOptsSet K (tyGSOctalOptsSet K qt port opts).1 port opts).2 =
      (tyGSOctalOptsSet K qt port opts).2 ∧
    ∃ mr1 mr2,
      modeWrites (tyGSOctalOptsSet K qt port opts).2 = [Ev.wr_mr port mr1, Ev.wr_mr port mr2] ∧
      modeWrites (tyGSOctalOptsSet K (tyGSOctalOptsSet K qt port opts).1 port opts).2 =
        [Ev.wr_mr port mr1, Ev.wr_mr port mr2] := by
  have hmodel : (tyGSOctalOptsSet K qt port opts).1.modelID = qt.modelID := rfl
  have htr : (tyGSOctalOptsSet K (tyGSOctalOptsSet K qt port opts).1 port opts).2 =
      (tyGSOctalOptsSet K qt port opts).2 := by
    simp only [tyGSOctalOptsSet, tyGSOctalSetmr, QUAD_TABLE.setDev]
  have hqt : (tyGSOctalOptsSet K (tyGSOctalOptsSet K qt port opts).1 port opts).1 =
      (tyGSOctalOptsSet K qt port opts).1 := by
    simp only [tyGSOctalOptsSet, tyGSOctalSetmr, QUAD_TABLE.setDev, Function.update_same,
      Function.update_idem]
  refine ⟨by rw [hqt], by rw [hqt], hqt, htr, ?_⟩
  rw [htr]
  by_cases h : qt.modelID = K.GSIP_OCTAL485
  · refine ⟨specMr1 K opts false, specMr2 K opts false, ?_⟩
    rw [((tyGSOctalOptsSet_events K qt port opts).1 h).1]
    exact ⟨rfl, rfl⟩
  · refine ⟨specMr1 K opts true, specMr2 K opts true, ?_⟩
    rw [((tyGSOctalOptsSet_events K qt port opts).2 h).1]
    split_ifs <;> exact ⟨rfl, rfl⟩

/-- C14: for every options value and module variant `tyGSOctalOptsSet` writes
the pointer-reset command `0x10` and then mode byte 1 and mode byte 2, in this
order.  On the variants other than 485 mode byte 1 is the word-length code (0,
1, 2, 3 for `CS5`, `CS6`, `CS7`, `CS8`) with `0x10` if `PARENB` is clear,
`0x04` if `PARODD` is set and `0x80` if `CLOCAL` is clear, mode byte 2 is
`0x0f` if `STOPB` is set, else `0x07`, with `0x10` if `CLOCAL` is clear, and
the channel is marked `RS232`.  On the 485 variant the two flow control terms
are left out for every options value, so bit `0x80` of mode byte 1 and bits
`0x30` of mode byte 2 are clear, and the channel is marked `RS485`. -/
theorem tyGSOctalOptsSet_mode_bytes (K : Consts) (hK : K.CaseLabels) (qt : QUAD_TABLE)
    (port opts : Nat) :
    ((opts &&& K.CSIZE = K.CS5 → wordLenCode K opts = 0) ∧
      (opts &&& K.CSIZE = K.CS6 → wordLenCode K opts = 1) ∧
      (opts &&& K.CSIZE = K.CS7 → wordLenCode K opts = 2) ∧
      (opts &&& K.CSIZE = K.CS8 → wordLenCode K opts = 3)) ∧
    (qt.modelID ≠ K.GSIP_OCTAL485 →
      (tyGSOctalOptsSet K qt port opts).2 =
        [Ev.wr_opcr (port / 2) 0x80, Ev.wr_cr port 0x10,
         Ev.wr_mr port (specMr1 K opts true), Ev.wr_mr port (specMr2 K opts true)] ++
          (if opts &&& K.CLOCAL = 0 then [Ev.wr_cr port 0x80] else []) ∧
      ((tyGSOctalOptsSet K qt port opts).1.dev port).mode = RSmode.RS232) ∧
    (qt.modelID = K.GSIP_OCTAL485 →
      (tyGSOctalOptsSet K qt port opts).2 =
        [Ev.wr_opcr (port / 2) 0x80, Ev.wr_cr port 0x10,
         Ev.wr_mr port (specMr1 K opts false), Ev.wr_mr port (specMr2 K opts false)] ∧
      specMr1 K opts false &&& 0x80 = 0 ∧ specMr2 K opts false &&& 0x30 = 0 ∧
      ((tyGSOctalOptsSet K qt port opts).1.dev port).mode = RSmode.RS485) := by
  obtain ⟨h56, h57, h58, h67, h68, h78⟩ := hK
  obtain ⟨_, _, _, _, _, e6, e7⟩ := optsMr_eq_spec K opts
  refine ⟨⟨?_, ?_, ?_, ?_⟩, (tyGSOctalOptsSet_events K qt port opts).2, ?_⟩
  · intro h
    simp [wordLenCode, h]
  · intro h
    simp [wordLenCode, h, Ne.symm h56]
  · intro h
    simp [wordLenCode, h, Ne.symm h57, Ne.symm h67]
  · intro h
    simp [wordLenCode, h, Ne.symm h58, Ne.symm h68, Ne.symm h78]
  · intro h
    obtain ⟨t1, t2⟩ := (tyGSOctalOptsSet_events K qt port opts).1 h
    exact ⟨t1, e6, e7, t2⟩

/-- C14 at the VxWorks constants: 7 bits, even parity, 2 stop bits and flow
control (`CS7 | STOPB | PARENB = 0x68`) on a 232 module and on a 485 module. -/
theorem tyGSOctalOptsSet_mode_bytes_witness :
    vxConsts.CaseLabels ∧
    (tyGSOctalOptsSet vxConsts qtTwoPorts 5 0x68).2 =
      [Ev.wr_opcr 2 0x80, Ev.wr_cr 5 0x10, Ev.wr_mr 5 (specMr1 vxConsts 0x68 true),
       Ev.wr_mr 5 (specMr2 vxConsts 0x68 true)] ++
        (if 0x68 &&& vxConsts.CLOCAL = 0 then [Ev.wr_cr 5 0x80] else []) ∧
    specMr1 vxConsts 0x68 true = 0x82 ∧ specMr2 vxConsts 0x68 true = 0x1f ∧
    (tyGSOctalOptsSet vxConsts qt485 3 0x68).2 =
      [Ev.wr_opcr 1 0x80, Ev.wr_cr 3 0x10, Ev.wr_mr 3 (specMr1 vxConsts 0x68 false),
       Ev.wr_mr 3 (specMr2 vxConsts 0x68 false)] ∧
    specMr1 vxConsts 0x68 false = 0x02 ∧ specMr2 vxConsts 0x68 false = 0x0f :=
  ⟨by decide,
   ((tyGSOctalOptsSet_mode_bytes vxConsts (by decide) qtTwoPorts 5 0x68).2.1 (by decide)).1,
   by decide, by decide,
   ((tyGSOctalOptsSet_mode_bytes vxConsts (by decide) qt485 3 0x68).2.2 (by decide)).1,
   by decide, by decide⟩

/-- C15 (as amended): on every module variant other than 485, for every options
value with `CLOCAL` clear (hardware flow control selected) `tyGSOctalOptsSet`
writes the command `0x80` right after the two mode bytes, as its last event,
and for every options value with `CLOCAL` set it writes no command `0x80`.  On
the 485 variant it writes no command `0x80` for any options value. -/
theorem tyGSOctalOptsSet_flow_control (K : Consts) (qt : QUAD_TABLE) (port opts : Nat) :
    (qt.modelID ≠ K.GSIP_OCTAL485 → opts &&& K.CLOCAL = 0 →
      ∃ mr1 mr2, (tyGSOctalOptsSet K qt port opts).2 =
        [Ev.wr_opcr (port / 2) 0x80, Ev.wr_cr port 0x10, Ev.wr_mr port mr1, Ev.wr_mr port mr2,
         Ev.wr_cr port 0x80]) ∧
    (qt.modelID ≠ K.GSIP_OCTAL485 → opts &&& K.CLOCAL ≠ 0 →
      Ev.wr_cr port 0x80 ∉ (tyGSOctalOptsSet K qt port opts).2) ∧
    (qt.modelID = K.GSIP_OCTAL485 →
      Ev.wr_cr port 0x80 ∉ (tyGSOctalOptsSet K qt port opts).2) := by
  refine ⟨?_, ?_, ?_⟩
  · intro h hc
    refine ⟨specMr1 K opts true, specMr2 K opts true, ?_⟩
    rw [((tyGSOctalOptsSet_events K qt port opts).2 h).1, if_pos hc]
    rfl
  · intro h hc
    rw [((tyGSOctalOptsSet_events K qt port opts).2 h).1, if_neg hc]
    simp
  · intro h
    rw [((tyGSOctalOptsSet_events K qt port opts).1 h).1]
    simp

/-- C15 as amended, at the VxWorks constants: options 0 (flow control
selected) and options `CLOCAL` on a 232 module, options 0 on a 485 module. -/
theorem tyGSOctalOptsSet_flow_control_witness :
    (∃ mr1 mr2, (tyGSOctalOptsSet vxConsts qtTwoPorts 5 0).2 =
      [Ev.wr_opcr (5 / 2) 0x80, Ev.wr_cr 5 0x10, Ev.wr_mr 5 mr1, Ev.wr_mr 5 mr2,
       Ev.wr_cr 5 0x80]) ∧
    Ev.wr_cr 5 0x80 ∉ (tyGSOctalOptsSet vxConsts qtTwoPorts 5 1).2 ∧
    Ev.wr_cr 3 0x80 ∉ (tyGSOctalOptsSet vxConsts qt485 3 0).2 :=
  ⟨(tyGSOctalOptsSet_flow_control vxConsts qtTwoPorts 5 0).1 (by decide) (by decide),
   (tyGSOctalOptsSet_flow_control vxConsts qtTwoPorts 5 1).2.1 (by decide) (by decide),
   (tyGSOctalOptsSet_flow_control vxConsts qt485 3 0).2.2 (by decide)⟩

/-- C15 (counterexample): on the module `qt485` of the 485 variant, for the
options value 0, in which `CLOCAL` is clear (hardware flow control selected),
`tyGSOctalOptsSet` writes the two mode bytes `0x10`, `0x07` and no command
`0x80`. -/
theorem tyGSOctalOptsSet_485_no_assert :
    qt485.modelID = vxConsts.GSIP_OCTAL485 ∧ 0 &&& vxConsts.CLOCAL = 0 ∧
    (tyGSOctalOptsSet vxConsts qt485 3 0).2 =
      [Ev.wr_opcr 1 0x80, Ev.wr_cr 3 0x10, Ev.wr_mr 3 0x10, Ev.wr_mr 3 0x07] ∧
    Ev.wr_cr 3 0x80 ∉ (tyGSOctalOptsSet vxConsts qt485 3 0).2 := by
  refine ⟨by decide, by decide, by decide, by decide⟩

/-! ### Channel bring-up and the interrupt mask -/

/-- Bits of a byte at positions 8 and above are clear. -/
theorem testBit_byte_high (x i : Nat) (hx : x < 256) (hi : 8 ≤ i) : x.testBit i = false := by
  apply Nat.testBit_eq_false_of_lt
  calc x < 2 ^ 8 := hx
    _ ≤ 2 ^ i := Nat.pow_le_pow_right (by decide) hi

/-- Clearing the bits of `irq` in a byte: the `&= ~irq` of the driver. -/
theorem testBit_andNot8 (x irq i : Nat) (hx : x < 256) :
    (x &&& (0xff ^^^ (irq % 256))).testBit i = (x.testBit i && !(irq % 256).testBit i) := by
  rw [Nat.testBit_and, Nat.testBit_xor]
  by_cases hi : i < 8
  · have h255 : (0xff : Nat).testBit i = true := by
      have := Nat.testBit_two_pow_sub_one 8 i
      simpa [hi] using this
    rw [h255]
    cases (irq % 256).testBit i <;> simp
  · have hx0 := testBit_byte_high x i hx (by omega)
    rw [hx0]
    simp

/-- C16: for every module state and every port `p`, `tyGSOctalInitChannel`
sets `block = p / 2` and `irqEnable` to `SCC_ISR_TXRDY_A` for even `p` and
`SCC_ISR_TXRDY_B` for odd `p`; the shadow `imr[p / 2]` becomes its old value
or-ed with the receive-ready bit of the port (`SCC_ISR_RXRDY_A` for even `p`,
`SCC_ISR_RXRDY_B` for odd `p`), so every bit outside that constant is as
before, and every other shadow entry is as before; the events are the reset
commands `0x1a`, `0x20`, `0x30`, `0x40` in this order, the baud and option
programming, the write of the new shadow value to the mask register of the
block, and the command `0x05` as the last register write. -/
theorem tyGSOctalInitChannel_frame (K : Consts) (hK : K.IsrBytes) (qt : QUAD_TABLE)
    (port : Nat) (himr : qt.imr (port / 2) < 256) :
    ((tyGSOctalInitChannel K qt port).1.dev port).block = port / 2 ∧
    ((tyGSOctalInitChannel K qt port).1.dev port).irqEnable =
      (if port % 2 = 0 then K.SCC_ISR_TXRDY_A else K.SCC_ISR_TXRDY_B) ∧
    (tyGSOctalInitChannel K qt port).1.imr (port / 2) =
      qt.imr (port / 2) ||| (if port % 2 = 0 then K.SCC_ISR_RXRDY_A else K.SCC_ISR_RXRDY_B) ∧
    (∀ i, (if port % 2 = 0 then K.SCC_ISR_RXRDY_A else K.SCC_ISR_RXRDY_B).testBit i = false →
      ((tyGSOctalInitChannel K qt port).1.imr (port / 2)).testBit i =
        (qt.imr (port / 2)).testBit i) ∧
    (∀ b, b ≠ port / 2 → (tyGSOctalInitChannel K qt port).1.imr b = qt.imr b) ∧
    (tyGSOctalInitChannel K qt port).2 =
      [Ev.intLock, Ev.wr_acr (port / 2) 0x80, Ev.wr_cr port 0x1a, Ev.wr_cr port 0x20,
       Ev.wr_cr port 0x30, Ev.wr_cr port 0x40] ++ [Ev.wr_csr port 0xbb] ++
      (tyGSOctalOptsSet K qt port (K.CS8 ||| K.CLOCAL)).2 ++
      [Ev.wr_imr (port / 2) ((tyGSOctalInitChannel K qt port).1.imr (port / 2)),
       Ev.wr_cr port 0x05, Ev.intUnlock] := by
  have h9600 : baudCsr 9600 = some 0xbb := by decide
  obtain ⟨ta, ra, tb, rb⟩ := hK
  have htx : (if port % 2 = 0 then K.SCC_ISR_TXRDY_A else K.SCC_ISR_TXRDY_B) < 256 := by
    split_ifs <;> assumption
  have hrx : (if port % 2 = 0 then K.SCC_ISR_RXRDY_A else K.SCC_ISR_RXRDY_B) < 256 := by
    split_ifs <;> assumption
  have hor : qt.imr (port / 2) |||
      (if port % 2 = 0 then K.SCC_ISR_RXRDY_A else K.SCC_ISR_RXRDY_B) < 256 :=
    Nat.or_lt_two_pow (n := 8) himr hrx
  have himr' : (tyGSOctalInitChannel K qt port).1.imr (port / 2) =
      qt.imr (port / 2) ||| (if port % 2 = 0 then K.SCC_ISR_RXRDY_A else K.SCC_ISR_RXRDY_B) := by
    simp only [tyGSOctalInitChannel, tyGSOctalBaudSet, h9600, tyGSOctalOptsSet, tyGSOctalSetmr,
      QUAD_TABLE.setDev, QUAD_TABLE.setImr, Function.update_same]
    exact Nat.mod_eq_of_lt hor
  refine ⟨?_, ?_, himr', ?_, ?_, ?_⟩
  · simp [tyGSOctalInitChannel, tyGSOctalBaudSet, h9600, tyGSOctalOptsSet, tyGSOctalSetmr,
      QUAD_TABLE.setDev, QUAD_TABLE.setImr]
  · simp only [tyGSOctalInitChannel, tyGSOctalBaudSet, h9600, tyGSOctalOptsSet, tyGSOctalSetmr,
      QUAD_TABLE.setDev, QUAD_TABLE.setImr, Function.update_same]
    exact Nat.mod_eq_of_lt htx
  · intro i hi
    rw [himr', Nat.testBit_or, hi, Bool.or_false]
  · intro b hb
    simp [tyGSOctalInitChannel, tyGSOctalBaudSet, h9600, tyGSOctalOptsSet, tyGSOctalSetmr,
      QUAD_TABLE.setDev, QUAD_TABLE.setImr, Function.update_noteq hb]
  · simp only [tyGSOctalInitChannel, tyGSOctalBaudSet, h9600, tyGSOctalOptsSet, tyGSOctalSetmr,
      QUAD_TABLE.setDev, QUAD_TABLE.setImr, Function.update_same, List.append_assoc]

/-- C16 at the VxWorks constants: port 4 of the module with ports 2 and 5
created, whose shadow `imr[2]` is `0x20`. -/
theorem tyGSOctalInitChannel_frame_witness :
    vxConsts.IsrBytes ∧ qtTwoPorts.imr (4 / 2) < 256 ∧
    ((tyGSOctalInitChannel vxConsts qtTwoPorts 4).1.dev 4).block = 4 / 2 ∧
    ((tyGSOctalInitChannel vxConsts qtTwoPorts 4).1.dev 4).irqEnable =
      (if 4 % 2 = 0 then vxConsts.SCC_ISR_TXRDY_A else vxConsts.SCC_ISR_TXRDY_B) ∧
    (tyGSOctalInitChannel vxConsts qtTwoPorts 4).1.imr (4 / 2) =
      qtTwoPorts.imr (4 / 2) |||
        (if 4 % 2 = 0 then vxConsts.SCC_ISR_RXRDY_A else vxConsts.SCC_ISR_RXRDY_B) ∧
    (tyGSOctalInitChannel vxConsts qtTwoPorts 4).1.imr 2 = 0x22 :=
  ⟨by decide, by decide,
   (tyGSOctalInitChannel_frame vxConsts (by decide) qtTwoPorts 4 (by decide)).1,
   (tyGSOctalInitChannel_frame vxConsts (by decide) qtTwoPorts 4 (by decide)).2.1,
   (tyGSOctalInitChannel_frame vxConsts (by decide) qtTwoPorts 4 (by decide)).2.2.1,
   by decide⟩

/-! ### Transmit restart without data -/

/-- The shadow mask and the events of `tyGSOctalStartup` when the line
discipline has nothing to send. -/
theorem tyGSOctalStartup_none (hw : HwIn) (qt : QUAD_TABLE) (port : Nat)
    (hno : hw.tyITx port = none) :
    (tyGSOctalStartup hw qt port).1 =
      qt.setImr (qt.dev port).block
        (qt.imr (qt.dev port).block &&& (0xff ^^^ ((qt.dev port).irqEnable % 256))) ∧
    (tyGSOctalStartup hw qt port).2 =
      [Ev.intLock, Ev.tyITx port,
       Ev.wr_imr (port / 2)
         (qt.imr (qt.dev port).block &&& (0xff ^^^ ((qt.dev port).irqEnable % 256))),
       Ev.intUnlock] := by
  simp [tyGSOctalStartup, hno]

/-- The shadow mask and the mask register write of the visit of a port by the
dispatcher when transmit-ready is set and the line discipline has nothing to
send. -/
theorem intService_tx_none (hw : HwIn) (st : IntState) (port : Nat)
    (hno : hw.tyITx port = none) (htx : intIsr hw st.qt port &&& 0x01 ≠ 0) :
    (intService hw st port).qt.imr =
      (st.qt.setImr (st.qt.dev port).block
        (st.qt.imr (st.qt.dev port).block &&&
          (0xff ^^^ ((st.qt.dev port).irqEnable % 256)))).imr ∧
    ∀ cur b, List.foldl (imrWrite b) cur (intService hw st port).trace =
      imrWrite b (List.foldl (imrWrite b) cur st.trace)
        (Ev.wr_imr (port / 2)
          (st.qt.imr (st.qt.dev port).block &&&
            (0xff ^^^ ((st.qt.dev port).irqEnable % 256)))) := by
  unfold intService
  simp only [hno, if_pos htx]
  constructor
  · split_ifs <;> simp [QUAD_TABLE.setDev, QUAD_TABLE.setImr]
  · intro cur b
    split_ifs <;>
      simp [QUAD_TABLE.setDev, QUAD_TABLE.setImr, List.foldl_append, imrWrite]

/-- C17: for every module state and every port for which the line discipline
has no byte to send, `tyGSOctalStartup` clears in the shadow `imr[block]` of the
port exactly the bits of its `irqEnable` (its transmit-enable bit): these bits
are 0 afterwards, every bit outside `irqEnable`, so the bits of the sibling
port and the receive-ready bit of the port, is as before, and nothing else of
the module changes; the new value is written to the mask register of the
block.  A second run leaves the same module and writes the same value again.
The dispatcher, when it services the port on transmit-ready and the line
discipline has no byte, ends with the same shadow mask and with the same value
in every hardware mask register. -/
theorem tyGSOctalStartup_disable (hw : HwIn) (qt : QUAD_TABLE) (port : Nat)
    (hno : hw.tyITx port = none) (himr : qt.imr (qt.dev port).block < 256) :
    (∀ i, ((tyGSOctalStartup hw qt port).1.imr (qt.dev port).block).testBit i =
      ((qt.imr (qt.dev port).block).testBit i && !((qt.dev port).irqEnable % 256).testBit i)) ∧
    (∀ m, m &&& ((qt.dev port).irqEnable % 256) = 0 →
      (tyGSOctalStartup hw qt port).1.imr (qt.dev port).block &&& m =
        qt.imr (qt.dev port).block &&& m) ∧
    (tyGSOctalStartup hw qt port).1.imr (qt.dev port).block &&&
      ((qt.dev port).irqEnable % 256) = 0 ∧
    (tyGSOctalStartup hw qt port).1 =
      qt.setImr (qt.dev port).block ((tyGSOctalStartup hw qt port).1.imr (qt.dev port).block) ∧
    (∀ b, b ≠ (qt.dev port).block → (tyGSOctalStartup hw qt port).1.imr b = qt.imr b) ∧
    (tyGSOctalStartup hw qt port).2 =
      [Ev.intLock, Ev.tyITx port,
       Ev.wr_imr (port / 2) ((tyGSOctalStartup hw qt port).1.imr (qt.dev port).block),
       Ev.intUnlock] ∧
    ((tyGSOctalStartup hw (tyGSOctalStartup hw qt port).1 port).1 =
        (tyGSOctalStartup hw qt port).1 ∧
      (tyGSOctalStartup hw (tyGSOctalStartup hw qt port).1 port).2 =
        (tyGSOctalStartup hw qt port).2) ∧
    (∀ hw2 : HwIn, hw2.tyITx port = none → intIsr hw2 qt port &&& 0x01 ≠ 0 →
      (tyGSOctalInt hw2 qt).serviced = some port →
      (tyGSOctalInt hw2 qt).qt.imr = (tyGSOctalStartup hw qt port).1.imr ∧
      ∀ h b, hwImr h (tyGSOctalInt hw2 qt).trace b =
        hwImr h (tyGSOctalStartup hw qt port).2 b) := by
  obtain ⟨hq, htr⟩ := tyGSOctalStartup_none hw qt port hno
  have hv : (tyGSOctalStartup hw qt port).1.imr (qt.dev port).block =
      qt.imr (qt.dev port).block &&& (0xff ^^^ ((qt.dev port).irqEnable % 256)) := by
    rw [hq]; simp [QUAD_TABLE.setImr]
  have hbits : ∀ i, ((tyGSOctalStartup hw qt port).1.imr (qt.dev port).block).testBit i =
      ((qt.imr (qt.dev port).block).testBit i &&
        !((qt.dev port).irqEnable % 256).testBit i) := by
    intro i
    rw [hv]
    exact testBit_andNot8 _ _ i himr
  refine ⟨hbits, ?_, ?_, ?_, ?_, ?_, ?_, ?_⟩
  · intro m hm
    apply Nat.eq_of_testBit_eq
    intro i
    have hmi := congrArg (fun x => Nat.testBit x i) hm
    simp only [Nat.testBit_and, Nat.zero_testBit] at hmi
    rw [Nat.testBit_and, Nat.testBit_and, hbits i]
    revert hmi
    cases (qt.imr (qt.dev port).block).testBit i <;> cases m.testBit i <;>
      cases ((qt.dev port).irqEnable % 256).testBit i <;> simp
  · apply Nat.eq_of_testBit_eq
    intro i
    rw [Nat.testBit_and, hbits i, Nat.zero_testBit]
    cases (qt.imr (qt.dev port).block).testBit i <;>
      cases ((qt.dev port).irqEnable % 256).testBit i <;> simp
  · rw [hv, hq]
  · intro b hb
    rw [hq]
    simp [QUAD_TABLE.setImr, Function.update_noteq hb]
  · rw [hv, htr]
  · have hno2 := tyGSOctalStartup_none hw (tyGSOctalStartup hw qt port).1 port hno
    have hdev : (tyGSOctalStartup hw qt port).1.dev = qt.dev := by rw [hq]; rfl
    have hidem : (tyGSOctalStartup hw qt port).1.imr (qt.dev port).block &&&
        (0xff ^^^ ((qt.dev port).irqEnable % 256)) =
        (tyGSOctalStartup hw qt port).1.imr (qt.dev port).block := by
      rw [hv, Nat.and_assoc, Nat.and_self]
    obtain ⟨h1, h2⟩ := hno2
    rw [hdev, hidem] at h1 h2
    refine ⟨?_, ?_⟩
    · rw [h1, hv, hq]
      simp [QUAD_TABLE.setImr]
    · rw [h2, htr, hv]
  · intro hw2 hno2 htx hs
    rcases tyGSOctalInt_spec hw2 qt with ⟨h1, _⟩ |
      ⟨k, pre, _, _, _, _, hpre, hk5, hk6, tail, ht1, ht2⟩
    · rw [h1] at hs; cases hs
    · rw [hk5] at hs
      injection hs with hs
      rw [hs] at hk6 ht2
      obtain ⟨s1, s2⟩ := intService_tx_none hw2
        { qt := { qt with interruptCount := (qt.interruptCount + 1) % ULONG_MOD },
          trace := pre, flush := none } port hno2 htx
      have hnopre : ∀ b v, Ev.wr_imr b v ∉ pre := by
        intro b v hmem
        have := (hpre _ hmem).2
        simp [Ev.isWrite] at this
      have hnotail : ∀ b v, Ev.wr_imr b v ∉ tail := by
        intro b v hmem
        have := (ht1 _ hmem).2
        simp [Ev.isWrite] at this
      constructor
      · rw [hk6, hq]
        simp only [intLeave]
        rw [s1]
        rfl
      · intro h b
        rw [ht2, htr]
        unfold hwImr
        simp only [intLeave, List.foldl_append]
        rw [foldl_imrWrite_same b tail _ (hnotail b), s2 (h b) b,
          foldl_imrWrite_same b pre _ (hnopre b)]
        simp [imrWrite]

/-- C17 at a concrete input: port 5 of `qtTx5`, whose shadow `imr[2]` is
`0x30` (receive and transmit of port 5 enabled); the transmit bit `0x10` is
cleared and `0x20` is left. -/
theorem tyGSOctalStartup_disable_witness :
    hwQuiet.tyITx 5 = none ∧ qtTx5.imr (qtTx5.dev 5).block < 256 ∧
    (tyGSOctalStartup hwQuiet qtTx5 5).1.imr (qtTx5.dev 5).block &&&
      ((qtTx5.dev 5).irqEnable % 256) = 0 ∧
    (tyGSOctalStartup hwQuiet qtTx5 5).2 =
      [Ev.intLock, Ev.tyITx 5,
       Ev.wr_imr (5 / 2) ((tyGSOctalStartup hwQuiet qtTx5 5).1.imr (qtTx5.dev 5).block),
       Ev.intUnlock] ∧
    (tyGSOctalStartup hwQuiet qtTx5 5).1.imr 2 = 0x20 :=
  ⟨rfl, by decide,
   (tyGSOctalStartup_disable hwQuiet qtTx5 5 rfl (by decide)).2.2.1,
   (tyGSOctalStartup_disable hwQuiet qtTx5 5 rfl (by decide)).2.2.2.2.2.1,
   by decide⟩

/-! ### Transmit restart with data -/

/-- What `tyGSOctalStartup` does with a byte of the line discipline while the
transmit holding register is not empty, in general: the byte is written to no
register and is kept nowhere; module and events are the same for every
byte. -/
theorem tyGSOctalStartup_thr_full (hw : HwIn) (qt : QUAD_TABLE) (port c : Nat)
    (hc : hw.tyITx port = some c) (hsr : (hw.sr port % 256) &&& 0x04 = 0) :
    tyGSOctalStartup hw qt port =
      (qt.setImr (qt.dev port).block
          ((qt.imr (qt.dev port).block ||| (qt.dev port).irqEnable) % 256),
       [Ev.intLock, Ev.tyITx port, Ev.rd_sr port,
        Ev.wr_imr (port / 2) ((qt.imr (qt.dev port).block ||| (qt.dev port).irqEnable) % 256),
        Ev.intUnlock]) := by
  simp [tyGSOctalStartup, hc, hsr]

/-- C13 (the code at the failing input): port 5 of `qtTwoPorts`, transmit
holding register not empty, the line discipline holding the bytes `0x41`,
`0x42`.  `tyGSOctalStartup` takes `0x41` with `tyITx`, reads the status, writes
no data register and enables the transmit interrupt.  At the next
transmit-ready service of port 5 `tyGSOctalInt` calls `tyITx` again and writes
the byte it gets, `0x42`.  The byte `0x41` is written to the data register by
neither. -/
theorem tyGSOctalStartup_drops_byte :
    hwHold.tyITx 5 = some 0x41 ∧ (hwHold.sr 5 % 256) &&& 0x04 = 0 ∧
    (tyGSOctalStartup hwHold qtTwoPorts 5).2 =
      [Ev.intLock, Ev.tyITx 5, Ev.rd_sr 5, Ev.wr_imr 2 0x30, Ev.intUnlock] ∧
    hwNext.tyITx 5 = some 0x42 ∧
    (tyGSOctalInt hwNext (tyGSOctalStartup hwHold qtTwoPorts 5).1).trace =
      [Ev.intLock, Ev.rd_sr 2, Ev.rd_isr 1, Ev.intUnlock,
       Ev.intLock, Ev.rd_sr 5, Ev.rd_isr 2, Ev.tyITx 5, Ev.wr_thr 5 0x42, Ev.wr_cr 5 0,
       Ev.intUnlock, Ev.flush_cr 5] ∧
    Ev.wr_thr 5 0x41 ∉ (tyGSOctalStartup hwHold qtTwoPorts 5).2 ++
      (tyGSOctalInt hwNext (tyGSOctalStartup hwHold qtTwoPorts 5).1).trace := by
  refine ⟨by decide, by decide, by decide, by decide, by decide, by decide⟩

/-! ### Module table bound -/

/-- C18 (the code at the failing input): after `tyGSOctalDrv(1)` the call
`tyGSOctalModuleInit("232-1", "232", 0x60, 0, 1)` returns handle 0 and the
count is 1.  The same call again returns handle 1, which is not smaller than
`maxModules = 1`, raises `tyGSOctalLastModule` to 2, above `maxModules`, and
table index 1, now below the count, holds the zeroed entry of `calloc`, whose
`moduleID` is `NULL`. -/
theorem tyGSOctalModuleInit_exceeds_table :
    (tyGSOctalDrv drvEnvOk drvUninstalled 1).2 = STATUS.OK ∧
    drvOneSlot.tyGSOctalMaxModules = 1 ∧ drvOneSlot.tyGSOctalLastModule = 0 ∧
    (tyGSOctalModuleInit vxConsts modEnvOk drvOneSlot
      (some "232-1") (some "232") 0x60 0 1).2.2 = some 0 ∧
    drvOneSlotFull.tyGSOctalLastModule = 1 ∧
    (tyGSOctalModuleInit vxConsts modEnvOk drvOneSlotFull
      (some "232-1") (some "232") 0x60 0 1).2.2 = some 1 ∧
    (tyGSOctalModuleInit vxConsts modEnvOk drvOneSlotFull
      (some "232-1") (some "232") 0x60 0 1).1.tyGSOctalLastModule = 2 ∧
    (tyGSOctalModuleInit vxConsts modEnvOk drvOneSlotFull
      (some "232-1") (some "232") 0x60 0 1).1.tyGSOctalMaxModules = 1 ∧
    ((tyGSOctalModuleInit vxConsts modEnvOk drvOneSlotFull
      (some "232-1") (some "232") 0x60 0 1).1.tyGSOctalModules 1).moduleID = none := by
  refine ⟨by decide, by decide, by decide, by decide, by decide, by decide, by decide,
    by decide, by decide⟩

end TyGSOctal
